import Mathlib

/-!
Shallow embedding of the Peruvian SUNAT invoice digitalization service
(API_Digitalizacion): the monetary token cleaners of the image processors,
the SUNAT code catalogs and RUC validators, the UBL 2.1 XML extractor and
the HTTP dispatch layer, together with proofs of the specification claims.

Python machine floats on monetary strings are modelled as exact rationals:
every claim below concerns decimal tokens with at most two fractional
digits passed through unchanged, where binary rounding is the identity on
the comparisons involved.  Python string routines are modelled on ASCII
character lists; the invoice domain uses no non-ASCII digits.
-/

attribute [local semireducible] Rat.add Rat.mul Rat.inv Rat.sub Rat.ofScientific

namespace Digitalizacion

/-- ASCII whitespace recognized by Python str.strip and the regex class \s. -/
def isPySpace (c : Char) : Bool :=
  c = ' ' || c = '\t' || c = '\n' || c = '\r' || c = '\x0b' || c = '\x0c'

/-- Length of dropWhile never exceeds the length of the input list. -/
theorem length_dropWhile_le' (p : Char → Bool) (l : List Char) :
    (l.dropWhile p).length ≤ l.length := by
  induction l with
  | nil => simp [List.dropWhile]
  | cons c rest ih =>
    by_cases h : p c
    · simp [List.dropWhile, h]
      omega
    · simp [List.dropWhile, h]

/-- Python str.strip: remove leading and trailing whitespace. -/
def pyStripL (l : List Char) : List Char :=
  ((l.dropWhile isPySpace).reverse.dropWhile isPySpace).reverse

/-- Python str.strip on a String. -/
def pyStripS (s : String) : String := String.mk (pyStripL s.toList)

/-- Numeric value of an ASCII digit character. -/
def digitVal (c : Char) : Nat := c.toNat - 48

/-- Value of a list of ASCII digit characters read in base 10. -/
def digitsToNat (l : List Char) : Nat := l.foldl (fun n c => 10 * n + digitVal c) 0

/-- Every character of the list is an ASCII decimal digit. -/
def allDigits (l : List Char) : Bool := l.all Char.isDigit

/-- Parse an unsigned decimal literal: digits, then an optional point and
fractional digits.  Python float() additionally accepts exponents,
underscores and inf/nan, none of which occur in invoice amount tokens. -/
def parseDecCore (l : List Char) : Option ℚ :=
  let intPart := l.takeWhile Char.isDigit
  let rest := l.dropWhile Char.isDigit
  if rest = [] then
    if intPart.isEmpty then none else some (digitsToNat intPart)
  else if rest.head? = some '.' ∧ allDigits rest.tail = true ∧
      (intPart ≠ [] ∨ rest.tail ≠ []) then
    some ((digitsToNat intPart : ℚ) + (digitsToNat rest.tail : ℚ) / (10 : ℚ) ^ rest.tail.length)
  else none

/-- Optional sign in front of a decimal literal. -/
def parseDecSigned (l : List Char) : Option ℚ :=
  if l.head? = some '+' then parseDecCore l.tail
  else if l.head? = some '-' then (parseDecCore l.tail).map Neg.neg
  else parseDecCore l

/-- Python float() applied to a string: strip whitespace, parse signed decimal. -/
def pyFloat (s : String) : Option ℚ := parseDecSigned (pyStripL s.toList)

/-- Python float() under the bare except-return-0.0 idiom of the cleaners. -/
def pyFloatD (l : List Char) : ℚ := (parseDecSigned (pyStripL l)).getD 0

/-- Body of a Python int literal: digits grouped by single underscores. -/
def pyIntDigits : List Char → Bool
  | [] => false
  | [c] => c.isDigit
  | c :: d :: rest =>
    if d = '_' then c.isDigit && pyIntDigits rest
    else c.isDigit && pyIntDigits (d :: rest)

/-- Remove underscore group separators. -/
def stripUnderscores (l : List Char) : List Char := l.filter (· ≠ '_')

/-- Python int() on a string: strip whitespace, optional sign, grouped digits.
Non-ASCII digits, also accepted by Python, do not occur in this domain. -/
def pyInt (s : String) : Option Int :=
  match pyStripL s.toList with
  | '+' :: rest =>
    if pyIntDigits rest then some ((digitsToNat (stripUnderscores rest) : Nat) : Int) else none
  | '-' :: rest =>
    if pyIntDigits rest then some (-((digitsToNat (stripUnderscores rest) : Nat) : Int)) else none
  | t => if pyIntDigits t then some ((digitsToNat (stripUnderscores t) : Nat) : Int) else none

/-- Python str.split(sep) on character lists; always returns ≥ 1 part. -/
def splitOnChar (sep : Char) : List Char → List (List Char)
  | [] => [[]]
  | c :: rest =>
    let r := splitOnChar sep rest
    if c = sep then [] :: r
    else
      match r with
      | h :: t => (c :: h) :: t
      | [] => [[c]]

/-- Does the second list start with the first one? -/
def startsWithL : List Char → List Char → Bool
  | [], _ => true
  | _ :: _, [] => false
  | p :: ps, c :: cs => p = c && startsWithL ps cs

/-- Substring containment, as the Python `in` operator on strings. -/
def containsSub (needle : List Char) : List Char → Bool
  | [] => needle.isEmpty
  | c :: rest => startsWithL needle (c :: rest) || containsSub needle rest

/-- Python `needle in hay` for strings. -/
def strContains (hay needle : String) : Bool := containsSub needle.toList hay.toList

/-- Membership of one character, as the Python `in` operator with a
one-character needle. -/
def elemChar (x : Char) : List Char → Bool
  | [] => false
  | c :: rest => c = x || elemChar x rest

/-- Python str.index of a character (first occurrence position). -/
def idxOfChar (c : Char) : List Char → Nat
  | [] => 0
  | x :: rest => if x = c then 0 else idxOfChar c rest + 1

/-- Replace every occurrence of one character by another (str.replace). -/
def mapChar (a r : Char) (l : List Char) : List Char := l.map fun c => if c = a then r else c

/-- Python str.replace of a two-character pattern, left to right, no overlap. -/
def replacePair (a b r1 r2 : Char) : List Char → List Char
  | x :: y :: rest =>
    if x = a && y = b then r1 :: r2 :: replacePair a b r1 r2 rest
    else x :: replacePair a b r1 r2 (y :: rest)
  | l => l

/-- Leftmost regex match of \d+\.?\d* starting at this position. -/
def tomarNumero (l : List Char) : List Char :=
  let ds := l.takeWhile Char.isDigit
  match l.dropWhile Char.isDigit with
  | '.' :: r2 => ds ++ '.' :: r2.takeWhile Char.isDigit
  | _ => ds

/-- re.search of \d+\.?\d* : first number-shaped token appearing in the list. -/
def buscarNumero : List Char → Option (List Char)
  | [] => none
  | c :: rest => if c.isDigit then some (tomarNumero (c :: rest)) else buscarNumero rest

end Digitalizacion

namespace ProcesadorImagen

open Digitalizacion

/-- Effect of re.sub(S/?\.?, empty): every capital S is dropped together with
an immediately following slash and then an immediately following period. -/
def subSDot : List Char → List Char
  | [] => []
  | 'S' :: '/' :: '.' :: rest => subSDot rest
  | 'S' :: '/' :: rest => subSDot rest
  | 'S' :: '.' :: rest => subSDot rest
  | 'S' :: rest => subSDot rest
  | c :: rest => c :: subSDot rest

/-- Fuel-indexed scanner for re.sub(SI\s*, empty); the fuel bounds the number
of scanning steps and is never exhausted when it starts at the list length. -/
def subSIF : Nat → List Char → List Char
  | 0, l => l
  | _ + 1, [] => []
  | f + 1, 'S' :: 'I' :: rest => subSIF f (rest.dropWhile isPySpace)
  | f + 1, c :: rest => c :: subSIF f rest

/-- Effect of re.sub(SI\s*, empty). -/
def subSI (l : List Char) : List Char := subSIF l.length l

/-- limpiar_numero of procesador_imagen.py: strip currency markers, drop
thousands commas, then read the first number-shaped token. -/
def limpiar_numero (texto : String) : ℚ :=
  if texto = "" then 0
  else
    let l := pyStripL texto.toList
    let l := subSDot l
    let l := subSI l
    let l := l.filter (· ≠ '$')
    let l := l.filter (· ≠ '€')
    let l := l.filter (· ≠ ' ')
    let l := l.filter (· ≠ ',')
    match buscarNumero l with
    | some numl => (parseDecSigned numl).getD 0
    | none => 0

end ProcesadorImagen

namespace ProcesadorImagenV8

open Digitalizacion

/-- Effect of the anchored re.sub(^[S5]\s*/\s*, empty) of v8 limpiar_numero. -/
def subMarcadorInicial (l : List Char) : List Char :=
  match l with
  | c :: rest =>
    if c = 'S' || c = '5' then
      match rest.dropWhile isPySpace with
      | '/' :: r2 => r2.dropWhile isPySpace
      | _ => l
    else l
  | [] => []

/-- Fuel-indexed scanner for re.sub([S5]/\.?\s*, empty) over the whole
string; the fuel bounds scanning steps and suffices at the list length. -/
def subMarcadorF : Nat → List Char → List Char
  | 0, l => l
  | _ + 1, [] => []
  | f + 1, 'S' :: '/' :: '.' :: rest => subMarcadorF f (rest.dropWhile isPySpace)
  | f + 1, 'S' :: '/' :: rest => subMarcadorF f (rest.dropWhile isPySpace)
  | f + 1, '5' :: '/' :: '.' :: rest => subMarcadorF f (rest.dropWhile isPySpace)
  | f + 1, '5' :: '/' :: rest => subMarcadorF f (rest.dropWhile isPySpace)
  | f + 1, c :: rest => c :: subMarcadorF f rest

/-- Effect of re.sub([S5]/\.?\s*, empty) in v8 limpiar_numero. -/
def subMarcador (l : List Char) : List Char := subMarcadorF l.length l

/-- limpiar_numero of procesador_imagen_v8.py. -/
def limpiar_numero (texto : String) : ℚ :=
  if texto = "" then 0
  else
    let l := pyStripL texto.toList
    let l := subMarcadorInicial l
    let l := subMarcador l
    let l := l.filter (· ≠ '$')
    let l := l.filter (· ≠ '€')
    let l := l.filter (· ≠ ' ')
    let l := l.filter (· ≠ ',')
    match buscarNumero l with
    | some numl => (parseDecSigned numl).getD 0
    | none => 0

end ProcesadorImagenV8

namespace ProcesadorImagenV56

open Digitalizacion

/-- OCR character confusion substitutions shared by v5 limpiar_monto and
v6 limpiar_monto: uu and UU become 00; u, U, D, O, o become 0; l, I become 1. -/
def ocrFix (l : List Char) : List Char :=
  mapChar 'I' '1' (mapChar 'l' '1' (mapChar 'o' '0' (mapChar 'O' '0' (mapChar 'D' '0'
    (mapChar 'U' '0' (mapChar 'u' '0' (replacePair 'U' 'U' '0' '0'
      (replacePair 'u' 'u' '0' '0' l))))))))

/-- Effect of the anchored re.sub(^[Ss5$][/lI1]\s*, empty). -/
def quitarSimbolo1 (l : List Char) : List Char :=
  match l with
  | c1 :: c2 :: rest =>
    if (c1 = 'S' || c1 = 's' || c1 = '5' || c1 = '$') &&
        (c2 = '/' || c2 = 'l' || c2 = 'I' || c2 = '1') then rest.dropWhile isPySpace
    else l
  | _ => l

/-- Effect of the anchored re.sub(^[Ss5]\s+, empty). -/
def quitarSimbolo2 (l : List Char) : List Char :=
  match l with
  | c :: d :: rest =>
    if (c = 'S' || c = 's' || c = '5') && isPySpace d then rest.dropWhile isPySpace
    else l
  | _ => l

/-- Fuel-indexed scanner for re.sub([Ss]/\s*, empty) over the whole string. -/
def quitarSimbolo3F : Nat → List Char → List Char
  | 0, l => l
  | _ + 1, [] => []
  | f + 1, c :: rest =>
    if (c = 'S' ∨ c = 's') ∧ rest.head? = some '/' then
      quitarSimbolo3F f (rest.tail.dropWhile isPySpace)
    else c :: quitarSimbolo3F f rest

/-- Effect of re.sub([Ss]/\s*, empty). -/
def quitarSimbolo3 (l : List Char) : List Char := quitarSimbolo3F l.length l

/-- Thousands/decimal separator disambiguation of v5/v6 limpiar_monto:
with both comma and period present, the first-occurring one is the
thousands separator; with only commas, a final two-digit group makes the
comma a decimal point, otherwise commas are stripped. -/
def manejarSeparadores (l : List Char) : List Char :=
  if elemChar ',' l && elemChar '.' l then
    if idxOfChar ',' l < idxOfChar '.' l then l.filter (· ≠ ',')
    else mapChar ',' '.' (l.filter (· ≠ '.'))
  else if elemChar ',' l then
    if ((splitOnChar ',' l).getLastD []).length = 2 then mapChar ',' '.' l
    else l.filter (· ≠ ',')
  else l

/-- limpiar_monto as defined identically in procesador_imagen_v5.py and
procesador_imagen_v6.py. -/
def limpiar_monto (valor : String) : ℚ :=
  if valor = "" then 0
  else
    pyFloatD (manejarSeparadores
      ((quitarSimbolo3 (quitarSimbolo2 (quitarSimbolo1
        (ocrFix (pyStripL valor.toList))))).filter (· ≠ ' ')))

end ProcesadorImagenV56

namespace ProcesadorImagenV4

open Digitalizacion

/-- Separator normalization of v4 limpiar_moneda: a value with exactly two
periods keeps only the last period; otherwise commas are stripped. -/
def normalizarSeparadores (l : List Char) : List Char :=
  if l.count '.' = 2 then
    (splitOnChar '.' l).dropLast.flatten ++ '.' :: (splitOnChar '.' l).getLastD []
  else if elemChar ',' l && elemChar '.' l then l.filter (· ≠ ',')
  else if elemChar ',' l && !elemChar '.' l then l.filter (· ≠ ',')
  else l

/-- limpiar_moneda of procesador_imagen_v4.py. -/
def limpiar_moneda (valor : String) : ℚ :=
  if valor = "" then 0
  else
    pyFloatD (normalizarSeparadores (mapChar 'B' '8' (mapChar 'l' '1' (mapChar 'I' '1'
      (mapChar 'd' '0' (mapChar 'D' '0' (mapChar 'o' '0' (mapChar 'O' '0'
        (valor.toList.filter
          (fun c => !(c = 'S' || c = '$' || c = '/' || c = 'l' || isPySpace c)))))))))))

end ProcesadorImagenV4

namespace Digitalizacion

/-- A digit character is not whitespace. -/
theorem digit_not_space (c : Char) (h : c.isDigit = true) : isPySpace c = false := by
  by_contra hc
  rw [Bool.not_eq_false] at hc
  simp only [isPySpace, Bool.or_eq_true, decide_eq_true_eq] at hc
  rcases hc with ((((h1 | h1) | h1) | h1) | h1) | h1 <;> rw [h1] at h <;>
    exact absurd h (by decide)

/-- dropWhile isPySpace is the identity on all-digit lists. -/
theorem dropWhile_digits (l : List Char) (h : ∀ c ∈ l, c.isDigit = true) :
    l.dropWhile isPySpace = l := by
  cases l with
  | nil => rfl
  | cons c rest =>
    have := digit_not_space c (h c (List.mem_cons_self c rest))
    simp [List.dropWhile_cons, this]

/-- pyStripL is the identity on all-digit lists. -/
theorem pyStripL_digits (l : List Char) (h : ∀ c ∈ l, c.isDigit = true) :
    pyStripL l = l := by
  unfold pyStripL
  rw [dropWhile_digits l h]
  rw [dropWhile_digits l.reverse (fun c hc => h c (List.mem_reverse.mp hc))]
  exact List.reverse_reverse l

/-- Nonempty all-digit lists are valid int literal bodies. -/
theorem pyIntDigits_digits : ∀ l : List Char, l ≠ [] → (∀ c ∈ l, c.isDigit = true) →
    pyIntDigits l = true := by
  intro l
  induction l with
  | nil => intro h; exact absurd rfl h
  | cons c rest ih =>
    intro _ h
    cases rest with
    | nil => simpa [pyIntDigits] using h c (by simp)
    | cons d rs =>
      have hd : d.isDigit = true := h d (by simp)
      have hdne : d ≠ '_' := by intro e; rw [e] at hd; exact absurd hd (by decide)
      simp only [pyIntDigits, if_neg hdne]
      rw [h c (by simp), ih (by simp) (fun x hx => h x (by simp [hx]))]
      rfl

/-- Removing underscores is the identity on all-digit lists. -/
theorem stripUnderscores_digits (l : List Char) (h : ∀ c ∈ l, c.isDigit = true) :
    stripUnderscores l = l := by
  unfold stripUnderscores
  apply List.filter_eq_self.mpr
  intro a ha
  have hda := h a ha
  simp only [decide_eq_true_eq]
  intro e; rw [e] at hda; exact absurd hda (by decide)

/-- Python int() succeeds on every nonempty all-digit string. -/
theorem pyInt_digits (s : String) (hne : s.toList ≠ [])
    (h : ∀ c ∈ s.toList, c.isDigit = true) :
    pyInt s = some ((digitsToNat s.toList : Nat) : Int) := by
  unfold pyInt
  rw [pyStripL_digits s.toList h]
  cases hl : s.toList with
  | nil => exact absurd hl hne
  | cons c rest =>
    have hc : c.isDigit = true := h c (by rw [hl]; simp)
    have hplus : c ≠ '+' := by intro e; rw [e] at hc; exact absurd hc (by decide)
    have hminus : c ≠ '-' := by intro e; rw [e] at hc; exact absurd hc (by decide)
    split
    · rename_i heq; injection heq with h1 _; exact absurd h1 hplus
    · rename_i heq; injection heq with h1 _; exact absurd h1 hminus
    · rw [pyIntDigits_digits (c :: rest) (by simp) (fun x hx => h x (hl ▸ hx))]
      rw [stripUnderscores_digits (c :: rest) (fun x hx => h x (hl ▸ hx))]
      simp

end Digitalizacion

namespace CatalogosSunat

open Digitalizacion

/-- SUNAT catalog 3: unit-of-measure codes (UN/ECE Rec 20) to printable names. -/
def CATALOGO_03_UNIDAD_MEDIDA : List (String × String) := [
    ("NIU", "UNIDAD"),
    ("ZZ", "UNIDAD"),
    ("UM", "MILLON DE UNIDADES"),
    ("KGM", "KILOGRAMO"),
    ("LTR", "LITRO"),
    ("MTR", "METRO"),
    ("MTK", "METRO CUADRADO"),
    ("MTQ", "METRO CUBICO"),
    ("GRM", "GRAMO"),
    ("TNE", "TONELADA"),
    ("BX", "CAJA"),
    ("PK", "PAQUETE"),
    ("DZN", "DOCENA"),
    ("GLL", "GALON"),
    ("ONZ", "ONZA"),
    ("LBR", "LIBRA"),
    ("SET", "JUEGO"),
    ("ROL", "ROLLO"),
    ("BG", "BOLSA"),
    ("PR", "PAR"),
    ("MLT", "MILILITRO"),
    ("CMT", "CENTIMETRO"),
    ("INH", "PULGADA"),
    ("FOT", "PIE"),
    ("YRD", "YARDA"),
    ("GLI", "GALON IMPERIAL"),
    ("DAY", "DIA"),
    ("HUR", "HORA"),
    ("MON", "MES"),
    ("ANN", "AÑO"),
    ("MIN", "MINUTO"),
    ("SEC", "SEGUNDO")]

/-- SUNAT catalog 2: ISO 4217 currency codes to printable names. -/
def CATALOGO_02_MONEDA : List (String × String) :=
  [("PEN", "SOLES"), ("USD", "DOLARES AMERICANOS"), ("EUR", "EUROS")]

/-- Python str.upper restricted to the ASCII range used by the catalogs. -/
def mayusculas (s : String) : String := String.mk (s.toList.map Char.toUpper)

/-- convertir_unidad_medida of catalogos_sunat.py: falsy input defaults to
UNIDAD; otherwise the uppercased, stripped code is looked up in catalog 3 and
returned as-is when absent. -/
def convertir_unidad_medida (codigo_xml : String) : String :=
  if codigo_xml = "" then "UNIDAD"
  else
    let codigo_upper := pyStripS (mayusculas codigo_xml)
    (CATALOGO_03_UNIDAD_MEDIDA.lookup codigo_upper).getD codigo_upper

/-- convertir_moneda of catalogos_sunat.py. -/
def convertir_moneda (codigo_xml : String) : String :=
  if codigo_xml = "" then "SOLES"
  else
    let codigo_upper := pyStripS (mayusculas codigo_xml)
    (CATALOGO_02_MONEDA.lookup codigo_upper).getD codigo_upper

/-- Verdict dictionary built by catalogos_sunat.validar_ruc; the early
wrong-length return carries no ruc key, modelled as none. -/
structure RucInfo where
  valido : Bool
  tipo : String
  ruc : Option Int
  mensaje : String
deriving DecidableEq

/-- RUC prefix classification table of catalogos_sunat.validar_ruc: the
tipos dictionary with its DESCONOCIDO default. -/
def tipoRuc (prefijo : List Char) : String :=
  if prefijo = ['1', '0'] then "PERSONA NATURAL"
  else if prefijo = ['1', '5'] then "SECTOR PUBLICO"
  else if prefijo = ['1', '7'] then "SECTOR PUBLICO"
  else if prefijo = ['2', '0'] then "PERSONA JURIDICA"
  else "DESCONOCIDO"

/-- validar_ruc of catalogos_sunat.py.  The unconditional int(ruc_str) in the
result dictionary can raise ValueError, modelled by the error branch. -/
def validar_ruc (ruc : String) : Except String RucInfo :=
  if ruc = "" ∨ ruc.toList.length ≠ 11 then
    .ok ⟨false, "INVALIDO", none, "RUC debe tener 11 dígitos"⟩
  else
    let prefijo := ruc.toList.take 2
    let tipo := tipoRuc prefijo
    match pyInt ruc with
    | none => .error ("invalid literal for int() with base 10: " ++ ruc)
    | some n =>
      .ok ⟨tipo ≠ "DESCONOCIDO", tipo, some n,
        if tipo ≠ "DESCONOCIDO" then "RUC válido - " ++ tipo
        else "Prefijo de RUC no reconocido"⟩

end CatalogosSunat

namespace ProcesadorImagenV8

open Digitalizacion

/-- Value of each character as a decimal digit, failing on any non-digit
(the int() calls inside the try of v8 validar_ruc). -/
def charsToDigits : List Char → Option (List Nat)
  | [] => some []
  | c :: rest => if c.isDigit then (charsToDigits rest).map (digitVal c :: ·) else none

/-- Weights of the RUC check-digit sum in v8 validar_ruc. -/
def factores : List Nat := [5, 4, 3, 2, 7, 6, 5, 4, 3, 2]

/-- Check-digit test of v8 validar_ruc on the 11 digit values. -/
def checkRuc (ds : List Nat) : Bool :=
  let suma := ((ds.take 10).zip factores).foldl (fun a p => a + p.1 * p.2) 0
  let resto := suma % 11
  let esperado := if resto > 1 then 11 - resto else resto
  ds.getD 10 0 = esperado

/-- Accepted two-character RUC prefixes. -/
def prefijoRucOk (l : List Char) : Bool :=
  startsWithL ['1','0'] l || startsWithL ['1','5'] l ||
  startsWithL ['1','7'] l || startsWithL ['2','0'] l

/-- validar_ruc of procesador_imagen_v8.py: length and prefix checks,
then the mod-11 check digit; int() failures inside the try yield False. -/
def validar_ruc (ruc : String) : Bool :=
  if ruc = "" ∨ ruc.toList.length ≠ 11 then false
  else if !prefijoRucOk ruc.toList then false
  else
    match charsToDigits ruc.toList with
    | some ds => checkRuc ds
    | none => false

end ProcesadorImagenV8

namespace Digitalizacion

/-- Python abs on a rational. -/
def ratAbs (q : ℚ) : ℚ := if q < 0 then -q else q

/-- Python round(x, 2): round half to even at two decimal places.  The
binary representation error of Python floats is not modelled, so this is
exact banker's rounding of the rational value. -/
def pyRound2 (q : ℚ) : ℚ :=
  let s := q * 100
  let f : Int := Rat.floor s
  let n : Int :=
    if s - f > 1 / 2 then f + 1
    else if s - f < 1 / 2 then f
    else if f % 2 = 0 then f else f + 1
  (n : ℚ) / 100

end Digitalizacion

namespace ProcesadorImagenV5

open Digitalizacion

/-- Warning appended when the extracted VAT is not close to 18 percent of
the taxable value (Python interpolates the float values into the text;
the rational values are interpolated here). -/
def advertenciaIGV (igv valorVenta : ℚ) : String :=
  "ADVERTENCIA: IGV (" ++ toString igv ++ ") no es ~18% de Valor Venta (" ++
    toString valorVenta ++ ")"

/-- Step 1 of the final cross validation of v5 procesar_factura_img: a very
low grand total is recomputed as taxable value plus VAT. -/
def paso1 (valorVenta igv importeTotal : ℚ) : ℚ :=
  if importeTotal < 100 ∧ valorVenta > 100 then valorVenta + igv else importeTotal

/-- Step 2: when taxable value and VAT are both positive and the VAT is not
within 5 percent of the calculated 18 percent, only a warning is appended. -/
def paso2 (valorVenta igv : ℚ) (validaciones : List String) : List String :=
  if valorVenta > 0 ∧ igv > 0 then
    if ratAbs (igv - valorVenta * (18 / 100)) < valorVenta * (18 / 100) * (5 / 100) then
      validaciones
    else validaciones ++ [advertenciaIGV igv valorVenta]
  else validaciones

/-- Step 3: a grand total farther than 10 from taxable value plus VAT is
replaced by that sum. -/
def paso3 (valorVenta igv importeTotal : ℚ) : ℚ :=
  if valorVenta > 0 ∧ igv > 0 ∧ importeTotal > 0 then
    if ratAbs (importeTotal - (valorVenta + igv)) > 10 then valorVenta + igv
    else importeTotal
  else importeTotal

/-- The VALIDACION CRUZADA FINAL block of v5 procesar_factura_img, acting on
the extracted totals: returns the corrected grand total, the (unchanged)
VAT and the validation list. -/
def validacion_cruzada (valorVenta igv importeTotal : ℚ) (validaciones : List String) :
    ℚ × ℚ × List String :=
  (paso3 valorVenta igv (paso1 valorVenta igv importeTotal), igv,
    paso2 valorVenta igv validaciones)

end ProcesadorImagenV5

namespace ProcesadorImagenV7

open Digitalizacion

/-- The final validation of v7 procesar_factura_img: VAT and grand total are
derived from the taxable value only when they are missing (zero). -/
def validacion_final (valorVenta igv importeTotal : ℚ) : ℚ × ℚ :=
  (if valorVenta > 0 ∧ igv = 0 then pyRound2 (valorVenta * (18 / 100)) else igv,
   if valorVenta > 0 ∧ importeTotal = 0 then pyRound2 (valorVenta * (118 / 100))
   else importeTotal)

end ProcesadorImagenV7

namespace ProcesadorImagenV8

open Digitalizacion

/-- The TOTALES block of v8 procesar_factura_img: with a positive unit
price, subtotal and taxable value are unit price times quantity, VAT is the
calculated 18 percent and the grand total their rounded sum; otherwise the
fields are left untouched (none). -/
def totales_desde_unitario (valor_unitario cantidad : ℚ) : Option (ℚ × ℚ × ℚ × ℚ) :=
  if valor_unitario > 0 then
    some (valor_unitario * cantidad, valor_unitario * cantidad,
      pyRound2 (valor_unitario * cantidad * (18 / 100)),
      pyRound2 (valor_unitario * cantidad + pyRound2 (valor_unitario * cantidad * (18 / 100))))
  else none

end ProcesadorImagenV8

namespace ProcesadorXml

open Digitalizacion

/-- An XML element: namespace-qualified tag, attributes, text, children.
Texts of absent nodes are none, as ElementTree reports them. -/
structure XmlNode where
  tag : String
  attrs : List (String × String) := []
  text : Option String := none
  children : List XmlNode := []

/-- Children carrying the given qualified tag, in document order. -/
def findSeg (n : XmlNode) (seg : String) : List XmlNode :=
  n.children.filter (fun c => c.tag == seg)

/-- ElementTree findall over a slash path (given as segment list). -/
def findPath : XmlNode → List String → List XmlNode
  | n, [] => [n]
  | n, seg :: rest => ((findSeg n seg).map (fun c => findPath c rest)).flatten

/-- ElementTree find: the first match of the path, if any. -/
def find (n : XmlNode) (ruta : List String) : Option XmlNode :=
  (findPath n ruta).head?

/-- obtener_valor with tipo=str: empty or missing text (or a missing parent
node, whose AttributeError the inner try swallows) defaults to the empty
string; otherwise the stripped text. -/
def obtener_valor_str (nodo : Option XmlNode) (ruta : List String) : String :=
  match nodo with
  | none => ""
  | some n =>
    match find n ruta with
    | some m =>
      match m.text with
      | some t => if t = "" then "" else pyStripS t
      | none => ""
    | none => ""

/-- obtener_valor with tipo=float: missing node or text, or an unparseable
float, defaults to 0.00. -/
def obtener_valor_float (nodo : Option XmlNode) (ruta : List String) : ℚ :=
  match nodo with
  | none => 0
  | some n =>
    match find n ruta with
    | some m =>
      match m.text with
      | some t => if t = "" then 0 else (pyFloat t).getD 0
      | none => 0
    | none => 0

/-- One invoice line of the output schema. -/
structure Linea where
  cantidad : ℚ
  unidadMedida : String
  descripcion : String
  valorUnitario : ℚ

/-- One installment of the output schema. -/
structure Cuota where
  numero : Nat
  fechaVencimiento : String
  monto : ℚ

/-- The factura object of the output JSON of procesar_factura_xml. -/
structure Factura where
  razonSocialEmisor : String
  direccionEmisor : String
  departamento : String
  provincia : String
  distrito : String
  rucEmisor : Int
  numeroFactura : String
  fechaEmision : String
  fechaContable : String
  razonSocialReceptor : String
  rucReceptor : Int
  direccionReceptorFactura : String
  direccionCliente : String
  tipoMoneda : String
  observacion : String
  formaPago : String
  lineaFactura : List Linea
  ventaGratuita : ℚ
  descripcionImporteTotal : String
  subtotalVenta : ℚ
  anticipo : ℚ
  descuento : ℚ
  valorVenta : ℚ
  isc : ℚ
  igv : ℚ
  otrosCargos : ℚ
  otrosTributos : ℚ
  montoRedondeo : ℚ
  importeTotal : ℚ
  montoNetoPendientePago : ℚ
  totalCuota : Nat
  cuotas : List Cuota

/-- The int(obtener_valor(...)) of the issuer RUC; ValueError becomes an
error value. -/
def pRucEmisor (root : XmlNode) : Except String Int :=
  match pyInt (obtener_valor_str (find root ["cac:AccountingSupplierParty", "cac:Party"])
      ["cac:PartyIdentification", "cbc:ID"]) with
  | some n => .ok n
  | none => .error ("invalid literal for int() with base 10: " ++
      obtener_valor_str (find root ["cac:AccountingSupplierParty", "cac:Party"])
        ["cac:PartyIdentification", "cbc:ID"])

/-- The int(obtener_valor(...)) of the buyer RUC. -/
def pRucReceptor (root : XmlNode) : Except String Int :=
  match pyInt (obtener_valor_str (find root ["cac:AccountingCustomerParty", "cac:Party"])
      ["cac:PartyIdentification", "cbc:ID"]) with
  | some n => .ok n
  | none => .error ("invalid literal for int() with base 10: " ++
      obtener_valor_str (find root ["cac:AccountingCustomerParty", "cac:Party"])
        ["cac:PartyIdentification", "cbc:ID"])

/-- The observaciones loop: notes without SON: are collected; a note whose
text is None raises TypeError, modelled as the error value. -/
def pObservaciones (notas : List XmlNode) : Except String String :=
  (notas.foldlM (fun (acc : List String) (nota : XmlNode) =>
    match nota.text with
    | none => Except.error "argument of type NoneType is not iterable"
    | some t =>
      Except.ok (if strContains t "SON:" = false then acc ++ [pyStripS t] else acc)) []).map
    (String.intercalate " ")

/-- Effect of re.sub(^SON:\s*, empty, flags=IGNORECASE). -/
def quitarSonInicio (l : List Char) : List Char :=
  match l with
  | s :: o :: n :: ':' :: rest =>
    if (s = 'S' ∨ s = 's') ∧ (o = 'O' ∨ o = 'o') ∧ (n = 'N' ∨ n = 'n') then
      rest.dropWhile isPySpace
    else l
  | _ => l

/-- Fuel-indexed scanner for re.sub(\s+, one space). -/
def collapseWsF : Nat → List Char → List Char
  | 0, l => l
  | _ + 1, [] => []
  | f + 1, c :: rest =>
    if isPySpace c then ' ' :: collapseWsF f (rest.dropWhile isPySpace)
    else c :: collapseWsF f rest

/-- Effect of re.sub(\s+, one space). -/
def collapseWs (l : List Char) : List Char := collapseWsF l.length l

/-- Cleanup of the amount-in-words note: strip, drop the SON: marker,
collapse whitespace, strip again. -/
def procesarSon (t : String) : String :=
  String.mk (pyStripL (collapseWs (quitarSonInicio (pyStripL t.toList))))

/-- First note whose text exists and mentions SON: gives the amount in
words; the loop breaks on it, so later notes are ignored. -/
def pDescripcionImporte : List XmlNode → String
  | [] => ""
  | n :: rest =>
    match n.text with
    | some t =>
      if t ≠ "" ∧ strContains t "SON:" = true then procesarSon t
      else pDescripcionImporte rest
    | none => pDescripcionImporte rest

/-- First run of digits in the list (regex \d+ search), as a number. -/
def firstDigitRun (l : List Char) : Option Nat :=
  let r := l.dropWhile (fun c => !c.isDigit)
  if r.isEmpty then none else some (digitsToNat (r.takeWhile Char.isDigit))

/-- The PaymentTerms loop: accumulates installments, the pending amount and
the payment scheme; an ill-formed PaymentDueDate raises ValueError at the
three-way unpacking, modelled as the error value. -/
def pCuotas (terms : List XmlNode) : Except String (List Cuota × ℚ × String) :=
  terms.foldlM (fun (st : List Cuota × ℚ × String) term => do
    let payment_id := obtener_valor_str (some term) ["cbc:ID"]
    let means_id := obtener_valor_str (some term) ["cbc:PaymentMeansID"]
    let amount := obtener_valor_float (some term) ["cbc:Amount"]
    if strContains payment_id "FormaPago" = true then
      if strContains means_id "Credito" = true then
        pure (st.1, amount, "Crédito")
      else if strContains means_id "Cuota" = true then do
        let fecha := obtener_valor_str (some term) ["cbc:PaymentDueDate"]
        let fechaFmt ←
          if fecha ≠ "" then
            match splitOnChar '-' fecha.toList with
            | [anio, mes, dia] =>
              pure (String.mk dia ++ "/" ++ String.mk mes ++ "/" ++ String.mk anio)
            | _ => Except.error "values to unpack in PaymentDueDate"
          else pure ""
        let num :=
          match firstDigitRun means_id.toList with
          | some k => k
          | none => st.1.length + 1
        pure (st.1 ++ [⟨num, fechaFmt, amount⟩], st.2.1, st.2.2)
      else pure st
    else pure st) ([], 0, "Contado")

/-- The InvoiceLine loop: a line without InvoicedQuantity raises
AttributeError on .get, modelled as the error value. -/
def pLineas (lineasXml : List XmlNode) : Except String (List Linea) :=
  lineasXml.foldlM (fun (acc : List Linea) line =>
    match find line ["cbc:InvoicedQuantity"] with
    | none => Except.error "NoneType object has no attribute get"
    | some qn =>
      Except.ok (acc ++ [{
        cantidad := obtener_valor_float (some line) ["cbc:InvoicedQuantity"]
        unidadMedida := CatalogosSunat.convertir_unidad_medida ((qn.attrs.lookup "unitCode").getD "")
        descripcion := obtener_valor_str (some line) ["cac:Item", "cbc:Description"]
        valorUnitario := obtener_valor_float (some line) ["cac:Price", "cbc:PriceAmount"]}])) []

/-- The TaxTotal loop: the last TaxTotal whose TaxSubtotal carries scheme
1000 provides the VAT amount; without one the VAT stays 0.00. -/
def calcIgv (root : XmlNode) : ℚ :=
  (findPath root ["cac:TaxTotal"]).foldl (fun igv tax =>
    match find tax ["cac:TaxSubtotal"] with
    | some st =>
      if obtener_valor_str (some st) ["cac:TaxCategory", "cac:TaxScheme", "cbc:ID"] = "1000"
      then obtener_valor_float (some tax) ["cbc:TaxAmount"]
      else igv
    | none => igv) 0

end ProcesadorXml

namespace ProcesadorXml

open Digitalizacion

/-- Body of the try of procesar_factura_xml: the five fallible stages in
source order (issuer RUC, buyer RUC, observations, installments, lines)
either all succeed, assembling the complete factura object, or the first
exception aborts the whole construction. -/
def construir_factura (root : XmlNode) : Except String Factura :=
  match pRucEmisor root, pRucReceptor root,
      pObservaciones (findPath root ["cbc:Note"]),
      pCuotas (findPath root ["cac:PaymentTerms"]),
      pLineas (findPath root ["cac:InvoiceLine"]) with
  | .ok rucEmisor, .ok rucReceptor, .ok obsFinal, .ok cuotasInfo, .ok lineas =>
    .ok {
      razonSocialEmisor := obtener_valor_str
        (find root ["cac:AccountingSupplierParty", "cac:Party"])
        ["cac:PartyLegalEntity", "cbc:RegistrationName"]
      direccionEmisor := pyStripS
        (obtener_valor_str
          ((find root ["cac:AccountingSupplierParty", "cac:Party"]).bind
            (fun e => find e ["cac:PartyLegalEntity", "cac:RegistrationAddress"]))
          ["cac:AddressLine", "cbc:Line"] ++ " " ++
        obtener_valor_str
          ((find root ["cac:AccountingSupplierParty", "cac:Party"]).bind
            (fun e => find e ["cac:PartyLegalEntity", "cac:RegistrationAddress"]))
          ["cbc:District"] ++ " - " ++
        obtener_valor_str
          ((find root ["cac:AccountingSupplierParty", "cac:Party"]).bind
            (fun e => find e ["cac:PartyLegalEntity", "cac:RegistrationAddress"]))
          ["cbc:CityName"] ++ " - " ++
        obtener_valor_str
          ((find root ["cac:AccountingSupplierParty", "cac:Party"]).bind
            (fun e => find e ["cac:PartyLegalEntity", "cac:RegistrationAddress"]))
          ["cbc:CountrySubentity"])
      departamento := obtener_valor_str
        ((find root ["cac:AccountingSupplierParty", "cac:Party"]).bind
          (fun e => find e ["cac:PartyLegalEntity", "cac:RegistrationAddress"]))
        ["cbc:CountrySubentity"]
      provincia := obtener_valor_str
        ((find root ["cac:AccountingSupplierParty", "cac:Party"]).bind
          (fun e => find e ["cac:PartyLegalEntity", "cac:RegistrationAddress"]))
        ["cbc:CityName"]
      distrito := obtener_valor_str
        ((find root ["cac:AccountingSupplierParty", "cac:Party"]).bind
          (fun e => find e ["cac:PartyLegalEntity", "cac:RegistrationAddress"]))
        ["cbc:District"]
      rucEmisor := rucEmisor
      numeroFactura := obtener_valor_str (some root) ["cbc:ID"]
      fechaEmision := obtener_valor_str (some root) ["cbc:IssueDate"]
      fechaContable := obtener_valor_str (some root) ["cbc:IssueDate"]
      razonSocialReceptor := obtener_valor_str
        (find root ["cac:AccountingCustomerParty", "cac:Party"])
        ["cac:PartyLegalEntity", "cbc:RegistrationName"]
      rucReceptor := rucReceptor
      direccionReceptorFactura := obtener_valor_str
        (find root ["cac:AccountingCustomerParty", "cac:Party"])
        ["cac:PartyLegalEntity", "cac:RegistrationAddress", "cac:AddressLine", "cbc:Line"]
      direccionCliente := obtener_valor_str
        (find root ["cac:AccountingCustomerParty", "cac:Party"])
        ["cac:PartyLegalEntity", "cac:RegistrationAddress", "cac:AddressLine", "cbc:Line"]
      tipoMoneda := CatalogosSunat.convertir_moneda
        (obtener_valor_str (some root) ["cbc:DocumentCurrencyCode"])
      observacion := obsFinal
      formaPago := cuotasInfo.2.2
      lineaFactura := lineas
      ventaGratuita := 0
      descripcionImporteTotal := pDescripcionImporte (findPath root ["cbc:Note"])
      subtotalVenta := obtener_valor_float (some root)
        ["cac:LegalMonetaryTotal", "cbc:LineExtensionAmount"]
      anticipo := 0
      descuento := obtener_valor_float (some root)
        ["cac:LegalMonetaryTotal", "cbc:AllowanceTotalAmount"]
      valorVenta := obtener_valor_float (some root)
        ["cac:LegalMonetaryTotal", "cbc:LineExtensionAmount"]
      isc := 0
      igv := calcIgv root
      otrosCargos := obtener_valor_float (some root)
        ["cac:LegalMonetaryTotal", "cbc:ChargeTotalAmount"]
      otrosTributos := 0
      montoRedondeo := 0
      importeTotal := obtener_valor_float (some root)
        ["cac:LegalMonetaryTotal", "cbc:PayableAmount"]
      montoNetoPendientePago := cuotasInfo.2.1
      totalCuota := cuotasInfo.1.length
      cuotas := cuotasInfo.1 }
  | .error e, _, _, _, _ => .error e
  | _, .error e, _, _, _ => .error e
  | _, _, .error e, _, _ => .error e
  | _, _, _, .error e, _ => .error e
  | _, _, _, _, .error e => .error e

/-- Input of procesar_factura_xml: a missing file, a file ElementTree cannot
parse (with the parser message), or a parsed document. -/
inductive EntradaXml
  | sinArchivo
  | malformado (e : String)
  | documento (root : XmlNode)

/-- The output dictionary: the optional factura object and the validacion
message list. -/
structure Salida where
  factura : Option Factura
  validacion : List String

/-- procesar_factura_xml of procesador_xml.py: missing file and any caught
exception give a bare validacion dictionary; success gives the complete
factura with an empty validacion list. -/
def procesar_factura_xml : EntradaXml → Salida
  | .sinArchivo => ⟨none, ["El archivo no existe"]⟩
  | .malformado e => ⟨none, ["Error procesando XML: " ++ e]⟩
  | .documento root =>
    match construir_factura root with
    | .ok f => ⟨some f, []⟩
    | .error e => ⟨none, ["Error procesando XML: " ++ e]⟩

/-- Leaf element with text content. -/
def hoja (tag : String) (text : String) : XmlNode := ⟨tag, [], some text, []⟩

/-- Interior element with children. -/
def nodoDe (tag : String) (children : List XmlNode) : XmlNode := ⟨tag, [], none, children⟩

/-- Sample UBL invoice of the end-to-end scenario: PayableAmount 4956.00,
IGV TaxTotal 756.00 under scheme 1000, LineExtensionAmount 4200.00. -/
def docEjemplo : XmlNode :=
  nodoDe "Invoice" [
    hoja "cbc:ID" "F001-1",
    hoja "cbc:IssueDate" "2024-01-15",
    hoja "cbc:DocumentCurrencyCode" "PEN",
    nodoDe "cac:AccountingSupplierParty" [
      nodoDe "cac:Party" [
        nodoDe "cac:PartyIdentification" [hoja "cbc:ID" "20123456789"],
        nodoDe "cac:PartyLegalEntity" [
          hoja "cbc:RegistrationName" "EMPRESA EJEMPLO S.A.C."]]],
    nodoDe "cac:AccountingCustomerParty" [
      nodoDe "cac:Party" [
        nodoDe "cac:PartyIdentification" [hoja "cbc:ID" "20601030013"]]],
    nodoDe "cac:TaxTotal" [
      hoja "cbc:TaxAmount" "756.00",
      nodoDe "cac:TaxSubtotal" [
        nodoDe "cac:TaxCategory" [
          nodoDe "cac:TaxScheme" [hoja "cbc:ID" "1000"]]]],
    nodoDe "cac:LegalMonetaryTotal" [
      hoja "cbc:LineExtensionAmount" "4200.00",
      hoja "cbc:PayableAmount" "4956.00"]]

end ProcesadorXml

namespace ProcesadorXml

open Digitalizacion

/-- A found node with nonempty text makes obtener_valor (str) return the
stripped text. -/
theorem obtener_str_eq (n m : XmlNode) (ruta : List String) (t : String)
    (h1 : find n ruta = some m) (h2 : m.text = some t) (h3 : t ≠ "") :
    obtener_valor_str (some n) ruta = pyStripS t := by
  simp only [obtener_valor_str, h1, h2]
  rw [if_neg h3]

/-- A found node whose text parses makes obtener_valor (float) return the
parsed value. -/
theorem obtener_float_eq (n m : XmlNode) (ruta : List String) (t : String) (q : ℚ)
    (h1 : find n ruta = some m) (h2 : m.text = some t) (h3 : t ≠ "")
    (h4 : pyFloat t = some q) :
    obtener_valor_float (some n) ruta = q := by
  simp only [obtener_valor_float, h1, h2, h4]
  rw [if_neg h3]
  rfl

/-- A successful construction fixes each monetary and header field to the
corresponding document lookup. -/
theorem construir_ok_campos (root : XmlNode) (f : Factura)
    (h : construir_factura root = .ok f) :
    f.importeTotal =
      obtener_valor_float (some root) ["cac:LegalMonetaryTotal", "cbc:PayableAmount"] ∧
    f.igv = calcIgv root ∧
    f.valorVenta =
      obtener_valor_float (some root) ["cac:LegalMonetaryTotal", "cbc:LineExtensionAmount"] ∧
    f.numeroFactura = obtener_valor_str (some root) ["cbc:ID"] ∧
    ∃ n : Int,
      pyInt (obtener_valor_str (find root ["cac:AccountingSupplierParty", "cac:Party"])
        ["cac:PartyIdentification", "cbc:ID"]) = some n ∧ f.rucEmisor = n := by
  unfold construir_factura at h
  split at h
  · rename_i rucE rucR obs cuotasInfo lineas heq1 heq2 heq3 heq4 heq5
    rw [Except.ok.injEq] at h
    subst h
    refine ⟨rfl, rfl, rfl, rfl, ?_⟩
    unfold pRucEmisor at heq1
    split at heq1
    · rename_i k hk
      rw [Except.ok.injEq] at heq1
      subst heq1
      exact ⟨k, hk, rfl⟩
    · exact absurd heq1 (by simp)
  all_goals simp at h

/-- A processing result carrying a factura can only come from a successful
construction of that factura. -/
theorem procesar_ok_construir (root : XmlNode) (f : Factura) (vs : List String)
    (h : procesar_factura_xml (.documento root) = ⟨some f, vs⟩) :
    construir_factura root = .ok f := by
  simp only [procesar_factura_xml] at h
  cases hc : construir_factura root with
  | ok g =>
    rw [hc] at h
    simp only [Salida.mk.injEq, Option.some.injEq] at h
    rw [h.1]
  | error e =>
    rw [hc] at h
    simp at h

end ProcesadorXml

namespace Api

open Digitalizacion

/-- JSON values exchanged by the endpoint. -/
inductive Json where
  | null
  | str (s : String)
  | num (q : ℚ)
  | bool (b : Bool)
  | arr (xs : List Json)
  | obj (campos : List (String × Json))

/-- The error dictionary of api.py: a validacion list with one message. -/
def errJson (m : String) : Json := .obj [("validacion", .arr [.str m])]

/-- Extensions accepted by the endpoint. -/
def extensiones : List String := ["pdf", "xml", "png", "jpg", "jpeg"]

/-- Python str.lower restricted to ASCII. -/
def pyLower (s : String) : String := String.mk (s.toList.map Char.toLower)

/-- filename.split(".")[-1] : the text after the last period. -/
def extensionDe (filename : String) : String :=
  String.mk ((splitOnChar '.' filename.toList).getLastD [])

/-- The if/elif routing of the temp file to the PDF, XML or image engine. -/
def despachar (pdfRes xmlRes imgRes : Except String Json) (ext : String) :
    Except String Json :=
  if ext = "pdf" then pdfRes else if ext = "xml" then xmlRes else imgRes

/-- procesar_documento of api.py, abstracted over the outcome of writing the
temp file and of each extraction engine on the uploaded content: unsupported
extension and every caught exception become singleton validacion
dictionaries, a successful engine result is returned as is. -/
def procesar_documento (pdfRes xmlRes imgRes : Except String Json)
    (escritura : Except String Unit) (filename : String) : Json :=
  if extensionDe (pyLower filename) ∉ extensiones then
    errJson "Formato de archivo no soportado. Use PDF, XML o Imágenes."
  else
    match escritura with
    | .error e => errJson ("Error interno del servidor: " ++ e)
    | .ok _ =>
      match despachar pdfRes xmlRes imgRes (extensionDe (pyLower filename)) with
      | .ok j => j
      | .error e => errJson ("Error interno del servidor: " ++ e)

end Api

namespace Digitalizacion

/-- Characters a separator-and-digits monetary token may contain. -/
def tokenMoneda (c : Char) : Bool := c.isDigit || c = ',' || c = '.'

/-- Case analysis on a monetary token character. -/
theorem tokenMoneda_cases (c : Char) (h : tokenMoneda c = true) :
    c.isDigit = true ∨ c = ',' ∨ c = '.' := by
  simpa [tokenMoneda, Bool.or_eq_true, decide_eq_true_eq, or_assoc] using h

/-- A monetary token character is distinct from any non-token character. -/
theorem tokenMoneda_ne (c x : Char) (h : tokenMoneda c = true)
    (hx : tokenMoneda x = false) : c ≠ x := by
  intro e
  rw [e, hx] at h
  exact Bool.noConfusion h

/-- A monetary token character is not whitespace. -/
theorem tokenMoneda_not_space (c : Char) (h : tokenMoneda c = true) :
    isPySpace c = false := by
  rcases tokenMoneda_cases c h with hd | e | e
  · exact digit_not_space c hd
  · rw [e]; decide
  · rw [e]; decide

/-- dropWhile isPySpace fixes lists without whitespace. -/
theorem dropWhile_nospace (l : List Char) (h : ∀ c ∈ l, isPySpace c = false) :
    l.dropWhile isPySpace = l := by
  cases l with
  | nil => rfl
  | cons c rest => simp [List.dropWhile_cons, h c (List.mem_cons_self c rest)]

/-- pyStripL fixes lists without whitespace. -/
theorem pyStripL_nospace (l : List Char) (h : ∀ c ∈ l, isPySpace c = false) :
    pyStripL l = l := by
  unfold pyStripL
  rw [dropWhile_nospace l h]
  rw [dropWhile_nospace l.reverse (fun c hc => h c (List.mem_reverse.mp hc))]
  exact List.reverse_reverse l

/-- mapChar fixes lists avoiding the replaced character. -/
theorem mapChar_id (a r : Char) (l : List Char) (h : ∀ x ∈ l, x ≠ a) :
    mapChar a r l = l := by
  unfold mapChar
  induction l with
  | nil => rfl
  | cons c rest ih =>
    simp only [List.map_cons]
    rw [if_neg (h c (List.mem_cons_self c rest)), ih (fun x hx => h x (by simp [hx]))]

/-- replacePair fixes lists avoiding the first pattern character. -/
theorem replacePair_id (a b r1 r2 : Char) :
    ∀ l : List Char, (∀ x ∈ l, x ≠ a) → replacePair a b r1 r2 l = l := by
  intro l
  induction l with
  | nil => intro _; rfl
  | cons x rest ih =>
    intro h
    cases rest with
    | nil => rfl
    | cons y rs =>
      have hx : x ≠ a := h x (by simp)
      simp only [replacePair]
      rw [if_neg (by simp [hx]), ih (fun z hz => h z (by simp [hz]))]

/-- takeWhile of an all-true list. -/
theorem takeWhile_all (p : Char → Bool) : ∀ l : List Char, (∀ c ∈ l, p c = true) →
    l.takeWhile p = l := by
  intro l
  induction l with
  | nil => intro _; rfl
  | cons c rest ih =>
    intro h
    simp [List.takeWhile_cons, h c (by simp), ih (fun x hx => h x (by simp [hx]))]

/-- dropWhile of an all-true list. -/
theorem dropWhile_all (p : Char → Bool) : ∀ l : List Char, (∀ c ∈ l, p c = true) →
    l.dropWhile p = [] := by
  intro l
  induction l with
  | nil => intro _; rfl
  | cons c rest ih =>
    intro h
    simp [List.dropWhile_cons, h c (by simp), ih (fun x hx => h x (by simp [hx]))]

/-- takeWhile stops exactly at the first failing element. -/
theorem takeWhile_app_stop (p : Char → Bool) (x : Char) :
    ∀ (a b : List Char), (∀ c ∈ a, p c = true) → p x = false →
    (a ++ x :: b).takeWhile p = a := by
  intro a
  induction a with
  | nil => intro b _ hx; simp [List.takeWhile_cons, hx]
  | cons c a' ih =>
    intro b h hx
    simp only [List.cons_append, List.takeWhile_cons, h c (by simp), if_true]
    rw [ih b (fun z hz => h z (by simp [hz])) hx]

/-- dropWhile drops exactly up to the first failing element. -/
theorem dropWhile_app_stop (p : Char → Bool) (x : Char) :
    ∀ (a b : List Char), (∀ c ∈ a, p c = true) → p x = false →
    (a ++ x :: b).dropWhile p = x :: b := by
  intro a
  induction a with
  | nil => intro b _ hx; simp [List.dropWhile_cons, hx]
  | cons c a' ih =>
    intro b h hx
    simp only [List.cons_append, List.dropWhile_cons, h c (by simp), if_true]
    exact ih b (fun z hz => h z (by simp [hz])) hx

/-- elemChar agrees with membership (positive direction). -/
theorem elemChar_true (x : Char) : ∀ l : List Char, x ∈ l → elemChar x l = true := by
  intro l
  induction l with
  | nil => intro h; cases h
  | cons c rest ih =>
    intro h
    simp only [elemChar, Bool.or_eq_true, decide_eq_true_eq]
    rcases List.mem_cons.mp h with e | hm
    · exact Or.inl e.symm
    · exact Or.inr (ih hm)

/-- elemChar agrees with membership (negative direction). -/
theorem elemChar_false (x : Char) : ∀ l : List Char, x ∉ l → elemChar x l = false := by
  intro l
  induction l with
  | nil => intro _; rfl
  | cons c rest ih =>
    intro h
    simp only [elemChar, Bool.or_eq_false_iff, decide_eq_false_iff_not]
    exact ⟨fun e => h (e ▸ List.mem_cons_self c rest),
      ih (fun hm => h (List.mem_cons_of_mem c hm))⟩

/-- idxOfChar distributes over a prefix avoiding the character. -/
theorem idx_append (x : Char) : ∀ (a r : List Char), x ∉ a →
    idxOfChar x (a ++ r) = a.length + idxOfChar x r := by
  intro a
  induction a with
  | nil => intro r _; simp
  | cons c a' ih =>
    intro r h
    have hc : c ≠ x := fun e => h (e ▸ List.mem_cons_self c a')
    simp only [List.cons_append, idxOfChar, if_neg hc, List.length_cons, List.append_eq]
    rw [ih r (fun hm => h (List.mem_cons_of_mem c hm))]
    omega

/-- Position of the first occurrence after a clean prefix. -/
theorem idx_head (x : Char) (a r : List Char) (h : x ∉ a) :
    idxOfChar x (a ++ x :: r) = a.length := by
  rw [idx_append x a _ h]
  simp [idxOfChar]

/-- split returns the whole list when the separator is absent. -/
theorem splitOnChar_no (sep : Char) : ∀ l : List Char, sep ∉ l →
    splitOnChar sep l = [l] := by
  intro l
  induction l with
  | nil => intro _; rfl
  | cons c rest ih =>
    intro h
    have hc : c ≠ sep := fun e => h (e ▸ List.mem_cons_self c rest)
    simp only [splitOnChar, if_neg hc]
    rw [ih (fun hm => h (List.mem_cons_of_mem c hm))]

/-- split peels one part at the first separator occurrence. -/
theorem splitOnChar_app (sep : Char) : ∀ (a r : List Char), sep ∉ a →
    splitOnChar sep (a ++ sep :: r) = a :: splitOnChar sep r := by
  intro a
  induction a with
  | nil => intro r _; simp [splitOnChar]
  | cons c a' ih =>
    intro r h
    have hc : c ≠ sep := fun e => h (e ▸ List.mem_cons_self c a')
    simp only [List.cons_append, splitOnChar, if_neg hc, List.append_eq]
    rw [ih r (fun hm => h (List.mem_cons_of_mem c hm))]

end Digitalizacion

namespace Digitalizacion

/-- A digit character differs from any non-digit character. -/
theorem digit_ne (c x : Char) (h : c.isDigit = true) (hx : x.isDigit = false) : c ≠ x := by
  intro e
  rw [e, hx] at h
  exact Bool.noConfusion h

/-- A non-digit character is not a member of an all-digit list. -/
theorem not_mem_of_digits (l : List Char) (x : Char) (h : ∀ c ∈ l, c.isDigit = true)
    (hx : x.isDigit = false) : x ∉ l := by
  intro hm
  rw [h x hm] at hx
  exact Bool.noConfusion hx

/-- The decimal parser on a nonempty all-digit list. -/
theorem parseDecCore_digits (l : List Char) (hne : l ≠ []) (h : ∀ c ∈ l, c.isDigit = true) :
    parseDecCore l = some ((digitsToNat l : Nat) : ℚ) := by
  simp only [parseDecCore]
  rw [takeWhile_all Char.isDigit l h, dropWhile_all Char.isDigit l h]
  simp [hne]

/-- The decimal parser on digits, a point and fractional digits. -/
theorem parseDecCore_dec (a b : List Char) (hne : a ≠ [])
    (ha : ∀ c ∈ a, c.isDigit = true) (hb : ∀ c ∈ b, c.isDigit = true) :
    parseDecCore (a ++ '.' :: b) =
      some ((digitsToNat a : ℚ) + (digitsToNat b : ℚ) / (10 : ℚ) ^ b.length) := by
  simp only [parseDecCore]
  rw [takeWhile_app_stop Char.isDigit '.' a b ha (by decide),
    dropWhile_app_stop Char.isDigit '.' a b ha (by decide)]
  rw [if_neg (by simp)]
  rw [if_pos ⟨rfl, by simpa [allDigits] using hb, Or.inl hne⟩]
  simp

/-- The decimal parser rejects a fractional part containing a point. -/
theorem parseDecCore_dot_in_frac (a r : List Char) (ha : ∀ x ∈ a, x.isDigit = true)
    (hr : '.' ∈ r) :
    parseDecCore (a ++ '.' :: r) = none := by
  have hdots : allDigits r = false := by
    cases hall : allDigits r with
    | false => rfl
    | true => exact absurd (List.all_eq_true.mp hall '.' hr) (by decide)
  simp only [parseDecCore]
  rw [takeWhile_app_stop Char.isDigit '.' a r ha (by decide),
    dropWhile_app_stop Char.isDigit '.' a r ha (by decide)]
  rw [if_neg (by simp)]
  rw [if_neg ?_]
  intro hcond
  obtain ⟨-, h2, -⟩ := hcond
  rw [List.tail_cons, hdots] at h2
  exact Bool.noConfusion h2

/-- The sign dispatch is the identity when the list starts with a digit. -/
theorem parseDecSigned_eq_core (c : Char) (rest : List Char) (hc : c.isDigit = true) :
    parseDecSigned (c :: rest) = parseDecCore (c :: rest) := by
  unfold parseDecSigned
  rw [if_neg (by simp [digit_ne c '+' hc (by decide)]),
    if_neg (by simp [digit_ne c '-' hc (by decide)])]

/-- The float-with-default on a nonempty all-digit token. -/
theorem pyFloatD_digits (l : List Char) (hne : l ≠ []) (h : ∀ c ∈ l, c.isDigit = true) :
    pyFloatD l = ((digitsToNat l : Nat) : ℚ) := by
  unfold pyFloatD
  rw [pyStripL_nospace l (fun c hc => digit_not_space c (h c hc))]
  cases l with
  | nil => exact absurd rfl hne
  | cons c rest =>
    rw [parseDecSigned_eq_core c rest (h c (by simp)), parseDecCore_digits _ (by simp) h]
    rfl

/-- The float-with-default on digits, point, fractional digits. -/
theorem pyFloatD_dec (a b : List Char) (hne : a ≠ [])
    (ha : ∀ c ∈ a, c.isDigit = true) (hb : ∀ c ∈ b, c.isDigit = true) :
    pyFloatD (a ++ '.' :: b) =
      (digitsToNat a : ℚ) + (digitsToNat b : ℚ) / (10 : ℚ) ^ b.length := by
  unfold pyFloatD
  have hns : ∀ c ∈ a ++ '.' :: b, isPySpace c = false := by
    intro c hc
    rcases List.mem_append.mp hc with hca | hcb
    · exact digit_not_space c (ha c hca)
    · rcases List.mem_cons.mp hcb with e | hcb'
      · rw [e]; decide
      · exact digit_not_space c (hb c hcb')
  rw [pyStripL_nospace _ hns]
  cases a with
  | nil => exact absurd rfl hne
  | cons c a' =>
    rw [List.cons_append, parseDecSigned_eq_core c (a' ++ '.' :: b) (ha c (by simp)),
      ← List.cons_append, parseDecCore_dec (c :: a') b (by simp) ha hb]
    rfl

/-- The float-with-default yields zero on a two-point token. -/
theorem pyFloatD_two_dots (a b c : List Char) (hne : a ≠ [])
    (ha : ∀ x ∈ a, x.isDigit = true) (hb : ∀ x ∈ b, x.isDigit = true)
    (hc : ∀ x ∈ c, x.isDigit = true) :
    pyFloatD (a ++ '.' :: (b ++ '.' :: c)) = 0 := by
  unfold pyFloatD
  have hns : ∀ x ∈ a ++ '.' :: (b ++ '.' :: c), isPySpace x = false := by
    intro x hx
    simp only [List.mem_append, List.mem_cons] at hx
    rcases hx with hxa | e | hxb | e | hxc
    · exact digit_not_space x (ha x hxa)
    · rw [e]; decide
    · exact digit_not_space x (hb x hxb)
    · rw [e]; decide
    · exact digit_not_space x (hc x hxc)
  rw [pyStripL_nospace _ hns]
  cases a with
  | nil => exact absurd rfl hne
  | cons d a' =>
    rw [List.cons_append, parseDecSigned_eq_core d (a' ++ '.' :: (b ++ '.' :: c))
      (ha d (by simp)), ← List.cons_append,
      parseDecCore_dot_in_frac (d :: a') (b ++ '.' :: c) ha (by simp)]
    rfl

end Digitalizacion

namespace Digitalizacion

/-- A digit is a monetary token character. -/
theorem tokenMoneda_of_digit (c : Char) (h : c.isDigit = true) : tokenMoneda c = true := by
  simp [tokenMoneda, h]

/-- mapChar distributes over append. -/
theorem mapChar_append (x r : Char) (a b : List Char) :
    mapChar x r (a ++ b) = mapChar x r a ++ mapChar x r b := by
  unfold mapChar
  exact List.map_append _ a b

/-- mapChar replaces a head occurrence. -/
theorem mapChar_cons_hit (x r : Char) (b : List Char) :
    mapChar x r (x :: b) = r :: mapChar x r b := by
  simp [mapChar]

/-- Filtering out a character appearing once between clean halves. -/
theorem filter_ne_middle (x : Char) (a b : List Char) (hxa : x ∉ a) (hxb : x ∉ b) :
    (a ++ x :: b).filter (· ≠ x) = a ++ b := by
  rw [List.filter_append, List.filter_cons_of_neg (by simp)]
  rw [List.filter_eq_self.mpr (fun c hc => by
      simp only [decide_eq_true_eq]
      exact fun e => hxa (e ▸ hc)),
    List.filter_eq_self.mpr (fun c hc => by
      simp only [decide_eq_true_eq]
      exact fun e => hxb (e ▸ hc))]

/-- A clean prefix keeps the first two characters of the whole token away
from the 51 misread pattern. -/
theorem take2_append_sep (a : List Char) (s : Char) (r : List Char) (hne : a ≠ [])
    (hs : s ≠ '1') (h51 : a.take 2 ≠ ['5', '1']) :
    (a ++ s :: r).take 2 ≠ ['5', '1'] := by
  cases a with
  | nil => exact absurd rfl hne
  | cons x a' =>
    cases a' with
    | nil =>
      intro h
      simp [List.take] at h
      exact hs h.2
    | cons y a'' =>
      intro h
      apply h51
      simp [List.take] at h ⊢
      exact h

end Digitalizacion

namespace ProcesadorImagenV56

open Digitalizacion

/-- The OCR confusion substitutions fix separator-and-digit tokens. -/
theorem ocrFix_id (l : List Char) (hcs : ∀ c ∈ l, tokenMoneda c = true) : ocrFix l = l := by
  have hne : ∀ x : Char, tokenMoneda x = false → ∀ c ∈ l, c ≠ x :=
    fun x hx c hc => tokenMoneda_ne c x (hcs c hc) hx
  unfold ocrFix
  rw [replacePair_id 'u' 'u' '0' '0' l (hne 'u' (by decide))]
  rw [replacePair_id 'U' 'U' '0' '0' l (hne 'U' (by decide))]
  rw [mapChar_id 'u' '0' l (hne 'u' (by decide))]
  rw [mapChar_id 'U' '0' l (hne 'U' (by decide))]
  rw [mapChar_id 'D' '0' l (hne 'D' (by decide))]
  rw [mapChar_id 'O' '0' l (hne 'O' (by decide))]
  rw [mapChar_id 'o' '0' l (hne 'o' (by decide))]
  rw [mapChar_id 'l' '1' l (hne 'l' (by decide))]
  rw [mapChar_id 'I' '1' l (hne 'I' (by decide))]

/-- The anchored currency marker removal fixes tokens not starting 51. -/
theorem quitarSimbolo1_id (l : List Char) (hcs : ∀ c ∈ l, tokenMoneda c = true)
    (h51 : l.take 2 ≠ ['5', '1']) : quitarSimbolo1 l = l := by
  cases l with
  | nil => rfl
  | cons c1 rest =>
    cases rest with
    | nil => rfl
    | cons c2 rest2 =>
      have hc1 : tokenMoneda c1 = true := hcs c1 (by simp)
      have hc2 : tokenMoneda c2 = true := hcs c2 (by simp)
      simp only [quitarSimbolo1]
      rw [if_neg ?_]
      intro hcond
      rw [Bool.and_eq_true] at hcond
      obtain ⟨h1, h2⟩ := hcond
      simp only [Bool.or_eq_true, decide_eq_true_eq] at h1 h2
      rcases h1 with ((e | e) | e) | e
      · exact absurd hc1 (by rw [e]; decide)
      · exact absurd hc1 (by rw [e]; decide)
      · rcases h2 with ((e2 | e2) | e2) | e2
        · exact absurd hc2 (by rw [e2]; decide)
        · exact absurd hc2 (by rw [e2]; decide)
        · exact absurd hc2 (by rw [e2]; decide)
        · subst e
          subst e2
          exact h51 (by simp [List.take])
      · exact absurd hc1 (by rw [e]; decide)

/-- The second anchored marker removal fixes whitespace-free tokens. -/
theorem quitarSimbolo2_id (l : List Char) (hcs : ∀ c ∈ l, tokenMoneda c = true) :
    quitarSimbolo2 l = l := by
  cases l with
  | nil => rfl
  | cons c1 rest =>
    cases rest with
    | nil => rfl
    | cons c2 rest2 =>
      have hc2 : isPySpace c2 = false := tokenMoneda_not_space c2 (hcs c2 (by simp))
      simp only [quitarSimbolo2]
      rw [if_neg (by simp [hc2])]

/-- The scanning marker removal fixes tokens without S or s. -/
theorem quitarSimbolo3F_id : ∀ (f : Nat) (l : List Char),
    (∀ c ∈ l, tokenMoneda c = true) → quitarSimbolo3F f l = l := by
  intro f
  induction f with
  | zero => intro l _; rfl
  | succ f ih =>
    intro l h
    cases l with
    | nil => rfl
    | cons c rest =>
      have hc : tokenMoneda c = true := h c (by simp)
      simp only [quitarSimbolo3F]
      rw [if_neg (by
        rintro ⟨e | e, -⟩
        · exact absurd hc (by rw [e]; decide)
        · exact absurd hc (by rw [e]; decide))]
      rw [ih rest (fun z hz => h z (by simp [hz]))]

/-- The scanning marker removal at full fuel. -/
theorem quitarSimbolo3_id (l : List Char) (hcs : ∀ c ∈ l, tokenMoneda c = true) :
    quitarSimbolo3 l = l :=
  quitarSimbolo3F_id l.length l hcs

/-- All of v5/v6 limpiar_monto before the separator stage fixes a
separator-and-digit token not starting with 51. -/
theorem limpiar_monto_token (l : List Char) (hne : l ≠ [])
    (hcs : ∀ c ∈ l, tokenMoneda c = true) (h51 : l.take 2 ≠ ['5', '1']) :
    limpiar_monto (String.mk l) = pyFloatD (manejarSeparadores l) := by
  have hnemk : String.mk l ≠ "" := fun e => hne (congrArg String.data e)
  have htl : (String.mk l).toList = l := rfl
  unfold limpiar_monto
  rw [if_neg hnemk, htl]
  rw [pyStripL_nospace l (fun c hc => tokenMoneda_not_space c (hcs c hc))]
  rw [ocrFix_id l hcs, quitarSimbolo1_id l hcs h51, quitarSimbolo2_id l hcs,
    quitarSimbolo3_id l hcs]
  rw [List.filter_eq_self.mpr (fun c hc => by
    simp only [decide_eq_true_eq]
    exact tokenMoneda_ne c ' ' (hcs c hc) (by decide))]

end ProcesadorImagenV56

namespace ProcesadorImagenV4

open Digitalizacion

/-- All of v4 limpiar_moneda before the separator stage fixes a
separator-and-digit token. -/
theorem limpiar_moneda_token (l : List Char) (hne : l ≠ [])
    (hcs : ∀ c ∈ l, tokenMoneda c = true) :
    limpiar_moneda (String.mk l) = pyFloatD (normalizarSeparadores l) := by
  have hnemk : String.mk l ≠ "" := fun e => hne (congrArg String.data e)
  have htl : (String.mk l).toList = l := rfl
  have hfil : ∀ x : Char, tokenMoneda x = false → ∀ c ∈ l, c ≠ x :=
    fun x hx c hc => tokenMoneda_ne c x (hcs c hc) hx
  unfold limpiar_moneda
  rw [if_neg hnemk, htl]
  rw [List.filter_eq_self.mpr (fun c hc => by
    have h1 := tokenMoneda_ne c 'S' (hcs c hc) (by decide)
    have h2 := tokenMoneda_ne c '$' (hcs c hc) (by decide)
    have h3 := tokenMoneda_ne c '/' (hcs c hc) (by decide)
    have h4 := tokenMoneda_ne c 'l' (hcs c hc) (by decide)
    have h5 := tokenMoneda_not_space c (hcs c hc)
    simp [h1, h2, h3, h4, h5])]
  rw [mapChar_id 'O' '0' l (hfil 'O' (by decide))]
  rw [mapChar_id 'o' '0' l (hfil 'o' (by decide))]
  rw [mapChar_id 'D' '0' l (hfil 'D' (by decide))]
  rw [mapChar_id 'd' '0' l (hfil 'd' (by decide))]
  rw [mapChar_id 'I' '1' l (hfil 'I' (by decide))]
  rw [mapChar_id 'l' '1' l (hfil 'l' (by decide))]
  rw [mapChar_id 'B' '8' l (hfil 'B' (by decide))]

end ProcesadorImagenV4

namespace ProcesadorImagenV56

open Digitalizacion

/-- Separator stage, single comma with a two-digit tail: comma becomes the
decimal point. -/
theorem sep_coma2 (a b : List Char) (ha : ∀ c ∈ a, c.isDigit = true)
    (hb : ∀ c ∈ b, c.isDigit = true) (hb2 : b.length = 2) :
    manejarSeparadores (a ++ ',' :: b) = a ++ '.' :: b := by
  have hca : ',' ∉ a := not_mem_of_digits a ',' ha (by decide)
  have hcb : ',' ∉ b := not_mem_of_digits b ',' hb (by decide)
  have hpa : '.' ∉ a := not_mem_of_digits a '.' ha (by decide)
  have hpb : '.' ∉ b := not_mem_of_digits b '.' hb (by decide)
  have hdot : elemChar '.' (a ++ ',' :: b) = false := by
    apply elemChar_false
    intro hm
    rcases List.mem_append.mp hm with h | h
    · exact hpa h
    · rcases List.mem_cons.mp h with e | h'
      · exact absurd e (by decide)
      · exact hpb h'
  have hcom : elemChar ',' (a ++ ',' :: b) = true := elemChar_true ',' _ (by simp)
  unfold manejarSeparadores
  rw [hcom, hdot]
  rw [if_neg (by simp)]
  rw [if_pos rfl]
  rw [splitOnChar_app ',' a b hca, splitOnChar_no ',' b hcb]
  rw [if_pos (by simp [List.getLastD, hb2])]
  rw [mapChar_append, mapChar_cons_hit]
  rw [mapChar_id ',' '.' a (fun x hx => digit_ne x ',' (ha x hx) (by decide))]
  rw [mapChar_id ',' '.' b (fun x hx => digit_ne x ',' (hb x hx) (by decide))]

/-- Separator stage, single comma with a tail of another length: comma is
stripped as a thousands marker. -/
theorem sep_comaN (a b : List Char) (ha : ∀ c ∈ a, c.isDigit = true)
    (hb : ∀ c ∈ b, c.isDigit = true) (hb2 : b.length ≠ 2) :
    manejarSeparadores (a ++ ',' :: b) = a ++ b := by
  have hca : ',' ∉ a := not_mem_of_digits a ',' ha (by decide)
  have hcb : ',' ∉ b := not_mem_of_digits b ',' hb (by decide)
  have hpa : '.' ∉ a := not_mem_of_digits a '.' ha (by decide)
  have hpb : '.' ∉ b := not_mem_of_digits b '.' hb (by decide)
  have hdot : elemChar '.' (a ++ ',' :: b) = false := by
    apply elemChar_false
    intro hm
    rcases List.mem_append.mp hm with h | h
    · exact hpa h
    · rcases List.mem_cons.mp h with e | h'
      · exact absurd e (by decide)
      · exact hpb h'
  have hcom : elemChar ',' (a ++ ',' :: b) = true := elemChar_true ',' _ (by simp)
  unfold manejarSeparadores
  rw [hcom, hdot]
  rw [if_neg (by simp)]
  rw [if_pos rfl]
  rw [splitOnChar_app ',' a b hca, splitOnChar_no ',' b hcb]
  rw [if_neg (by simp [List.getLastD, hb2])]
  exact filter_ne_middle ',' a b hca hcb

/-- Separator stage, comma before period: the comma is stripped. -/
theorem sep_mixta (a b c : List Char) (ha : ∀ x ∈ a, x.isDigit = true)
    (hb : ∀ x ∈ b, x.isDigit = true) (hc : ∀ x ∈ c, x.isDigit = true) :
    manejarSeparadores (a ++ ',' :: (b ++ '.' :: c)) = (a ++ b) ++ '.' :: c := by
  have hca : ',' ∉ a := not_mem_of_digits a ',' ha (by decide)
  have hpa : '.' ∉ a := not_mem_of_digits a '.' ha (by decide)
  have hpb : '.' ∉ b := not_mem_of_digits b '.' hb (by decide)
  have hcr : ',' ∉ b ++ '.' :: c := by
    intro hm
    rcases List.mem_append.mp hm with h | h
    · exact not_mem_of_digits b ',' hb (by decide) h
    · rcases List.mem_cons.mp h with e | h'
      · exact absurd e (by decide)
      · exact not_mem_of_digits c ',' hc (by decide) h'
  have hcom : elemChar ',' (a ++ ',' :: (b ++ '.' :: c)) = true :=
    elemChar_true ',' _ (by simp)
  have hdot : elemChar '.' (a ++ ',' :: (b ++ '.' :: c)) = true :=
    elemChar_true '.' _ (by simp)
  have hidxc : idxOfChar ',' (a ++ ',' :: (b ++ '.' :: c)) = a.length :=
    idx_head ',' a _ hca
  have hidxp : idxOfChar '.' (a ++ ',' :: (b ++ '.' :: c)) =
      a.length + (b.length + 1) := by
    rw [idx_append '.' a _ hpa]
    congr 1
    show idxOfChar '.' (',' :: (b ++ '.' :: c)) = b.length + 1
    simp only [idxOfChar, if_neg (by decide : ¬(',' = '.'))]
    rw [idx_head '.' b c hpb]
  unfold manejarSeparadores
  rw [hcom, hdot]
  rw [if_pos (show (true && true) = true from rfl)]
  rw [if_pos (show idxOfChar ',' (a ++ ',' :: (b ++ '.' :: c)) <
    idxOfChar '.' (a ++ ',' :: (b ++ '.' :: c)) from by rw [hidxc, hidxp]; omega)]
  rw [filter_ne_middle ',' a (b ++ '.' :: c) hca hcr]
  rw [← List.append_assoc]

/-- Separator stage, no comma at all: the token is left untouched. -/
theorem sep_sin_coma (l : List Char) (h : ',' ∉ l) :
    manejarSeparadores l = l := by
  have hcom : elemChar ',' l = false := elemChar_false ',' l h
  unfold manejarSeparadores
  rw [hcom]
  rw [if_neg (by simp)]
  rw [if_neg (by simp)]

end ProcesadorImagenV56

namespace ProcesadorImagenV4

open Digitalizacion

/-- v4 separator stage, exactly two periods: all but the last are removed. -/
theorem norm_dos_puntos (a b c : List Char) (ha : ∀ x ∈ a, x.isDigit = true)
    (hb : ∀ x ∈ b, x.isDigit = true) (hc : ∀ x ∈ c, x.isDigit = true) :
    normalizarSeparadores (a ++ '.' :: (b ++ '.' :: c)) = (a ++ b) ++ '.' :: c := by
  have hpa : '.' ∉ a := not_mem_of_digits a '.' ha (by decide)
  have hpb : '.' ∉ b := not_mem_of_digits b '.' hb (by decide)
  have hpc : '.' ∉ c := not_mem_of_digits c '.' hc (by decide)
  have hcount : (a ++ '.' :: (b ++ '.' :: c)).count '.' = 2 := by
    rw [List.count_append, List.count_cons, List.count_append, List.count_cons]
    rw [List.count_eq_zero.mpr hpa, List.count_eq_zero.mpr hpb, List.count_eq_zero.mpr hpc]
    simp
  unfold normalizarSeparadores
  rw [if_pos hcount]
  rw [splitOnChar_app '.' a _ hpa, splitOnChar_app '.' b c hpb, splitOnChar_no '.' c hpc]
  simp [List.dropLast, List.getLastD]

/-- v4 separator stage, a single comma: stripped as a thousands marker even
with a two-digit tail. -/
theorem norm_coma (a b : List Char) (ha : ∀ x ∈ a, x.isDigit = true)
    (hb : ∀ x ∈ b, x.isDigit = true) :
    normalizarSeparadores (a ++ ',' :: b) = a ++ b := by
  have hca : ',' ∉ a := not_mem_of_digits a ',' ha (by decide)
  have hcb : ',' ∉ b := not_mem_of_digits b ',' hb (by decide)
  have hpa : '.' ∉ a := not_mem_of_digits a '.' ha (by decide)
  have hpb : '.' ∉ b := not_mem_of_digits b '.' hb (by decide)
  have hdot : elemChar '.' (a ++ ',' :: b) = false := by
    apply elemChar_false
    intro hm
    rcases List.mem_append.mp hm with h | h
    · exact hpa h
    · rcases List.mem_cons.mp h with e | h'
      · exact absurd e (by decide)
      · exact hpb h'
  have hcom : elemChar ',' (a ++ ',' :: b) = true := elemChar_true ',' _ (by simp)
  have hcount : (a ++ ',' :: b).count '.' = 0 := by
    rw [List.count_append, List.count_cons]
    rw [List.count_eq_zero.mpr hpa, List.count_eq_zero.mpr hpb]
    simp
  unfold normalizarSeparadores
  rw [hcount]
  rw [if_neg (by omega)]
  rw [hcom, hdot]
  rw [if_neg (by simp)]
  rw [if_pos (by simp)]
  exact filter_ne_middle ',' a b hca hcb

end ProcesadorImagenV4

namespace Claims

open Digitalizacion

/-- C1 counterexample: the claim asserts that every cleaning function maps
the European-style token "4.200,00" to 4200.00, but limpiar_numero of
procesador_imagen.py strips the comma and keeps the period as a decimal
point, yielding 4.2 (and v8 limpiar_numero does the same). -/
theorem C1_counterexample :
    ProcesadorImagen.limpiar_numero "4.200,00" = 21 / 5 ∧
    ProcesadorImagenV8.limpiar_numero "4.200,00" = 21 / 5 ∧
    (21 / 5 : ℚ) ≠ 4200 := by
  refine ⟨by decide, by decide, by decide⟩

/-- C1 amended: limpiar_monto of v5/v6 satisfies all three spec vectors;
limpiar_numero (procesador_imagen.py and v8) satisfies the "S/ 4,200.00"
and "garbage" vectors but maps "4.200,00" to 4.2, because it strips commas
as thousands markers and keeps the first period as the decimal point. -/
theorem C1_cleaners :
    ProcesadorImagenV56.limpiar_monto "S/ 4,200.00" = 4200 ∧
    ProcesadorImagenV56.limpiar_monto "4.200,00" = 4200 ∧
    ProcesadorImagenV56.limpiar_monto "garbage" = 0 ∧
    ProcesadorImagen.limpiar_numero "S/ 4,200.00" = 4200 ∧
    ProcesadorImagen.limpiar_numero "4.200,00" = 21 / 5 ∧
    ProcesadorImagen.limpiar_numero "garbage" = 0 ∧
    ProcesadorImagenV8.limpiar_numero "S/ 4,200.00" = 4200 ∧
    ProcesadorImagenV8.limpiar_numero "4.200,00" = 21 / 5 ∧
    ProcesadorImagenV8.limpiar_numero "garbage" = 0 := by
  refine ⟨by decide, by decide, by decide, by decide, by decide, by decide, by decide,
    by decide, by decide⟩

/-- C6 counterexample: "abc" is not a catalog code (nor is its uppercase
form), yet convertir_unidad_medida does not return it unchanged: the
function uppercases the code before the lookup and returns "ABC". -/
theorem C6_counterexample :
    CatalogosSunat.convertir_unidad_medida "abc" = "ABC" ∧ "ABC" ≠ "abc" := by
  exact ⟨by decide, by decide⟩

/-- C6 amended: NIU converts to UNIDAD; a code absent from catalog 3 after
uppercasing and stripping is returned in that uppercased, stripped form
(hence unchanged whenever it is already uppercase without surrounding
whitespace); empty input defaults to UNIDAD. -/
theorem C6_convertir_unidad :
    CatalogosSunat.convertir_unidad_medida "NIU" = "UNIDAD" ∧
    (∀ s : String, s ≠ "" →
      CatalogosSunat.CATALOGO_03_UNIDAD_MEDIDA.lookup
        (pyStripS (CatalogosSunat.mayusculas s)) = none →
      CatalogosSunat.convertir_unidad_medida s = pyStripS (CatalogosSunat.mayusculas s)) ∧
    CatalogosSunat.convertir_unidad_medida "" = "UNIDAD" := by
  refine ⟨by decide, ?_, by decide⟩
  intro s hs hl
  unfold CatalogosSunat.convertir_unidad_medida
  rw [if_neg hs]
  simp [hl]

/-- C6 witness: the amended pass-through at the unknown code XYZ. -/
theorem C6_convertir_unidad_witness :
    CatalogosSunat.convertir_unidad_medida "XYZ" = pyStripS (CatalogosSunat.mayusculas "XYZ") :=
  C6_convertir_unidad.2.1 "XYZ" (by decide) (by decide)

/-- C3 counterexample: "20000000002" is an 11-digit string with prefix 20,
which the claim says both validators report valid, but v8 validar_ruc
rejects it because its mod-11 check digit fails. -/
theorem C3_counterexample :
    "20000000002".toList.length = 11 ∧ allDigits "20000000002".toList = true ∧
    "20000000002".toList.take 2 = ['2', '0'] ∧
    ProcesadorImagenV8.validar_ruc "20000000002" = false := by
  exact ⟨by decide, by decide, by decide, by decide⟩

/-- C3 amended: catalogos_sunat.validar_ruc classifies every 11-digit string
purely by its two-digit prefix (10 natural person, 15/17 public sector,
20 legal entity, anything else invalid) and reports any other length
invalid; v8 validar_ruc also rejects wrong lengths and foreign prefixes,
but among 11-digit strings with an accepted prefix it accepts exactly
those whose last digit matches the weighted mod-11 check digit. -/
theorem C3_validar_ruc :
    (∀ s : String, s.toList.length = 11 → allDigits s.toList = true →
      ∃ info, CatalogosSunat.validar_ruc s = .ok info ∧
        (info.valido = true ↔
          s.toList.take 2 ∈ [['1','0'], ['1','5'], ['1','7'], ['2','0']]) ∧
        (s.toList.take 2 = ['1','0'] → info.tipo = "PERSONA NATURAL") ∧
        ((s.toList.take 2 = ['1','5'] ∨ s.toList.take 2 = ['1','7']) →
          info.tipo = "SECTOR PUBLICO") ∧
        (s.toList.take 2 = ['2','0'] → info.tipo = "PERSONA JURIDICA")) ∧
    (∀ s : String, s.toList.length ≠ 11 →
      ∃ info, CatalogosSunat.validar_ruc s = .ok info ∧ info.valido = false) ∧
    (∀ s : String, s.toList.length ≠ 11 → ProcesadorImagenV8.validar_ruc s = false) ∧
    (∀ s : String, ProcesadorImagenV8.prefijoRucOk s.toList = false →
      ProcesadorImagenV8.validar_ruc s = false) ∧
    (∀ (s : String) (ds : List Nat), s.toList.length = 11 →
      ProcesadorImagenV8.prefijoRucOk s.toList = true →
      ProcesadorImagenV8.charsToDigits s.toList = some ds →
      (ProcesadorImagenV8.validar_ruc s = true ↔ ProcesadorImagenV8.checkRuc ds = true)) := by
  have hne : ∀ s : String, s.toList.length = 11 → s ≠ "" := by
    intro s h e
    rw [e] at h
    simp at h
  refine ⟨?_, ?_, ?_, ?_, ?_⟩
  · intro s h11 hdig
    have hd : ∀ c ∈ s.toList, c.isDigit = true := by
      intro c hc
      exact List.all_eq_true.mp hdig c hc
    unfold CatalogosSunat.validar_ruc
    rw [if_neg (by push_neg; exact ⟨hne s h11, h11⟩)]
    rw [pyInt_digits s (by intro e; rw [e] at h11; simp at h11) hd]
    refine ⟨_, rfl, ?_, ?_, ?_, ?_⟩
    · by_cases h10 : s.toList.take 2 = ['1','0'] <;>
        by_cases h15 : s.toList.take 2 = ['1','5'] <;>
        by_cases h17 : s.toList.take 2 = ['1','7'] <;>
        by_cases h20 : s.toList.take 2 = ['2','0'] <;>
        simp_all [CatalogosSunat.tipoRuc]
    · intro h10
      rw [h10]
      rfl
    · rintro (h15 | h17)
      · rw [h15]; rfl
      · rw [h17]; rfl
    · intro h20
      rw [h20]
      rfl
  · intro s h
    unfold CatalogosSunat.validar_ruc
    rw [if_pos (Or.inr h)]
    exact ⟨_, rfl, rfl⟩
  · intro s h
    unfold ProcesadorImagenV8.validar_ruc
    rw [if_pos (Or.inr h)]
  · intro s h
    unfold ProcesadorImagenV8.validar_ruc
    by_cases h1 : s = "" ∨ s.toList.length ≠ 11
    · rw [if_pos h1]
    · rw [if_neg h1]
      rw [h]
      rfl
  · intro s ds h11 hpre hds
    unfold ProcesadorImagenV8.validar_ruc
    rw [if_neg (by push_neg; exact ⟨hne s h11, h11⟩)]
    rw [hpre, hds]
    simp

/-- C3 witness: the amended classification applied at concrete RUCs. -/
theorem C3_validar_ruc_witness :
    (∃ info, CatalogosSunat.validar_ruc "20123456789" = .ok info ∧
      info.tipo = "PERSONA JURIDICA") ∧
    (ProcesadorImagenV8.validar_ruc "20000000001" = true ↔
      ProcesadorImagenV8.checkRuc [2, 0, 0, 0, 0, 0, 0, 0, 0, 0, 1] = true) := by
  constructor
  · obtain ⟨info, h1, _, _, _, h5⟩ := C3_validar_ruc.1 "20123456789" (by decide) (by decide)
    exact ⟨info, h1, h5 (by decide)⟩
  · exact C3_validar_ruc.2.2.2.2 "20000000001" [2, 0, 0, 0, 0, 0, 0, 0, 0, 0, 1]
      (by decide) (by decide) (by decide)

/-- C9 counterexample: the 11-character string +1234567890 contains a
non-digit, yet int() accepts a leading sign, so catalogos_sunat.validar_ruc
returns a verdict dictionary instead of raising. -/
theorem C9_counterexample :
    "+1234567890".toList.length = 11 ∧ allDigits "+1234567890".toList = false ∧
    CatalogosSunat.validar_ruc "+1234567890" =
      .ok ⟨false, "DESCONOCIDO", some 1234567890, "Prefijo de RUC no reconocido"⟩ := by
  exact ⟨by decide, by decide, by rfl⟩

/-- C9 amended: validar_ruc raises on exactly the 11-character inputs that
Python int() rejects; wrong-length inputs and 11-character inputs accepted
by int() (all-digit strings, but also signed or whitespace-padded
numerals) always produce a verdict dictionary. -/
theorem C9_validar_ruc_excepcion :
    (∀ s : String, s.toList.length = 11 → pyInt s = none →
      ∃ e, CatalogosSunat.validar_ruc s = .error e) ∧
    (∀ s : String, s.toList.length ≠ 11 →
      ∃ info, CatalogosSunat.validar_ruc s = .ok info) ∧
    (∀ (s : String) (n : Int), s.toList.length = 11 → pyInt s = some n →
      ∃ info, CatalogosSunat.validar_ruc s = .ok info ∧ info.ruc = some n) := by
  have hne : ∀ s : String, s.toList.length = 11 → s ≠ "" := by
    intro s h e
    rw [e] at h
    simp at h
  refine ⟨?_, ?_, ?_⟩
  · intro s h11 hint
    unfold CatalogosSunat.validar_ruc
    rw [if_neg (by push_neg; exact ⟨hne s h11, h11⟩)]
    rw [hint]
    exact ⟨_, rfl⟩
  · intro s h
    unfold CatalogosSunat.validar_ruc
    rw [if_pos (Or.inr h)]
    exact ⟨_, rfl⟩
  · intro s n h11 hint
    unfold CatalogosSunat.validar_ruc
    rw [if_neg (by push_neg; exact ⟨hne s h11, h11⟩)]
    rw [hint]
    exact ⟨_, rfl, rfl⟩

/-- C9 witness: an 11-character non-numeric input raises, per the amendment. -/
theorem C9_validar_ruc_excepcion_witness :
    ∃ e, CatalogosSunat.validar_ruc "abcdefghijk" = .error e :=
  C9_validar_ruc_excepcion.1 "abcdefghijk" (by decide) (by decide)

/-- C7 counterexample: with taxable value 100, VAT 50 and grand total 150
the VAT deviates from the calculated 18 percent (18) by far more than the
5 percent tolerance, yet the v5 cross validation leaves the VAT at 50
instead of overriding it with the calculated value. -/
theorem C7_counterexample :
    ¬ ratAbs (50 - 100 * (18 / 100)) < 100 * (18 / 100) * (5 / 100) ∧
    (ProcesadorImagenV5.validacion_cruzada 100 50 150 []).2.1 = 50 ∧
    (100 : ℚ) * (18 / 100) = 18 ∧ (50 : ℚ) ≠ 18 :=
  ⟨by decide, rfl, by decide, by decide⟩

/-- C7 amended: in the v5 cross validation a positive VAT is never
overridden: a deviation beyond the 5 percent tolerance only appends a
warning, while an implausible positive grand total (farther than 10 from
taxable value plus VAT) is replaced by that sum; VAT is derived as the
calculated 18 percent only when the extracted VAT is zero (v7), or
unconditionally from a positive unit price (v8). -/
theorem C7_correccion_cruzada :
    (∀ (vv igv it : ℚ) (vs : List String),
      (ProcesadorImagenV5.validacion_cruzada vv igv it vs).2.1 = igv) ∧
    (∀ (vv igv it : ℚ) (vs : List String), vv > 0 → igv > 0 →
      ¬ ratAbs (igv - vv * (18 / 100)) < vv * (18 / 100) * (5 / 100) →
      (ProcesadorImagenV5.validacion_cruzada vv igv it vs).2.2 =
        vs ++ [ProcesadorImagenV5.advertenciaIGV igv vv]) ∧
    (∀ (vv igv it : ℚ) (vs : List String), vv > 0 → igv > 0 → it > 0 →
      ratAbs (it - (vv + igv)) > 10 →
      (ProcesadorImagenV5.validacion_cruzada vv igv it vs).1 = vv + igv) ∧
    (∀ vv igv it : ℚ, vv > 0 → igv = 0 →
      (ProcesadorImagenV7.validacion_final vv igv it).1 = pyRound2 (vv * (18 / 100))) ∧
    (∀ vu cant : ℚ, vu > 0 →
      ∃ sub vv tot, ProcesadorImagenV8.totales_desde_unitario vu cant =
        some (sub, vv, pyRound2 (vu * cant * (18 / 100)), tot)) := by
  refine ⟨fun vv igv it vs => rfl, ?_, ?_, ?_, ?_⟩
  · intro vv igv it vs h1 h2 h3
    show ProcesadorImagenV5.paso2 vv igv vs = _
    unfold ProcesadorImagenV5.paso2
    rw [if_pos ⟨h1, h2⟩, if_neg h3]
  · intro vv igv it vs h1 h2 h3 h4
    show ProcesadorImagenV5.paso3 vv igv (ProcesadorImagenV5.paso1 vv igv it) = vv + igv
    unfold ProcesadorImagenV5.paso1 ProcesadorImagenV5.paso3
    by_cases hc : it < 100 ∧ vv > 100
    · rw [if_pos hc, if_pos ⟨h1, h2, by linarith⟩]
      have h0 : ratAbs (vv + igv - (vv + igv)) = 0 := by simp [ratAbs]
      rw [if_neg (by rw [h0]; norm_num)]
    · rw [if_neg hc, if_pos ⟨h1, h2, h3⟩, if_pos h4]
  · intro vv igv it h1 h2
    simp [ProcesadorImagenV7.validacion_final, h1, h2]
  · intro vu cant h
    unfold ProcesadorImagenV8.totales_desde_unitario
    rw [if_pos h]
    exact ⟨_, _, _, rfl⟩

/-- C7 witness: the amended behavior at concrete extracted totals. -/
theorem C7_correccion_cruzada_witness :
    (ProcesadorImagenV5.validacion_cruzada 100 50 150 []).2.2 =
      [] ++ [ProcesadorImagenV5.advertenciaIGV 50 100] ∧
    (ProcesadorImagenV5.validacion_cruzada 100 18 500 []).1 = 100 + 18 ∧
    (ProcesadorImagenV7.validacion_final 200 0 0).1 = pyRound2 (200 * (18 / 100)) :=
  ⟨C7_correccion_cruzada.2.1 100 50 150 [] (by norm_num) (by norm_num) (by decide),
    C7_correccion_cruzada.2.2.1 100 18 500 [] (by norm_num) (by norm_num) (by norm_num)
      (by decide),
    C7_correccion_cruzada.2.2.2.1 200 0 0 (by norm_num) rfl⟩

/-- C2: a UBL invoice carrying PayableAmount 4956.00, a TaxTotal with
TaxSubtotal scheme 1000 and TaxAmount 756.00, and LineExtensionAmount
4200.00, once processed successfully, yields importeTotal 4956.00, igv
756.00 and valorVenta 4200.00 unchanged. -/
theorem C2_xml_totales (root : ProcesadorXml.XmlNode) (f : ProcesadorXml.Factura)
    (amt tt st ta lext : ProcesadorXml.XmlNode)
    (hok : ProcesadorXml.procesar_factura_xml (.documento root) = ⟨some f, []⟩)
    (hpay : ProcesadorXml.find root ["cac:LegalMonetaryTotal", "cbc:PayableAmount"] = some amt)
    (hpayt : amt.text = some "4956.00")
    (htt : ProcesadorXml.findPath root ["cac:TaxTotal"] = [tt])
    (hst : ProcesadorXml.find tt ["cac:TaxSubtotal"] = some st)
    (hscheme : ProcesadorXml.obtener_valor_str (some st)
      ["cac:TaxCategory", "cac:TaxScheme", "cbc:ID"] = "1000")
    (hta : ProcesadorXml.find tt ["cbc:TaxAmount"] = some ta)
    (htat : ta.text = some "756.00")
    (hlext : ProcesadorXml.find root
      ["cac:LegalMonetaryTotal", "cbc:LineExtensionAmount"] = some lext)
    (hlextt : lext.text = some "4200.00") :
    f.importeTotal = 4956 ∧ f.igv = 756 ∧ f.valorVenta = 4200 := by
  obtain ⟨h1, h2, h3, -, -⟩ := ProcesadorXml.construir_ok_campos root f
    (ProcesadorXml.procesar_ok_construir root f [] hok)
  refine ⟨?_, ?_, ?_⟩
  · rw [h1, ProcesadorXml.obtener_float_eq root amt _ "4956.00" 4956 hpay hpayt
      (by decide) (by decide)]
  · rw [h2]
    unfold ProcesadorXml.calcIgv
    rw [htt]
    simp only [List.foldl_cons, List.foldl_nil, hst, hscheme, if_pos]
    rw [ProcesadorXml.obtener_float_eq tt ta _ "756.00" 756 hta htat (by decide) (by decide)]
  · rw [h3, ProcesadorXml.obtener_float_eq root lext _ "4200.00" 4200 hlext hlextt
      (by decide) (by decide)]

/-- C2 witness: the scenario evaluated on the concrete sample invoice. -/
theorem C2_xml_totales_witness :
    ∃ f, ProcesadorXml.procesar_factura_xml (.documento ProcesadorXml.docEjemplo) =
        ⟨some f, []⟩ ∧
      f.importeTotal = 4956 ∧ f.igv = 756 ∧ f.valorVenta = 4200 := by
  obtain ⟨f, hf⟩ : ∃ f, ProcesadorXml.procesar_factura_xml
      (.documento ProcesadorXml.docEjemplo) = ⟨some f, []⟩ := ⟨_, rfl⟩
  exact ⟨f, hf,
    C2_xml_totales ProcesadorXml.docEjemplo f _ _ _ _ _ hf rfl rfl rfl rfl rfl rfl rfl rfl rfl⟩

/-- C5: whenever processing succeeds and the document carries the issuer tax
id (as a clean numeric string), the invoice number and the grand total,
the output reproduces them exactly: rucEmisor is the numeric value of the
id text, numeroFactura the stripped id text, importeTotal the exact
rational value of the amount text. -/
theorem C5_round_trip (root : ProcesadorXml.XmlNode) (f : ProcesadorXml.Factura)
    (p idn fn an : ProcesadorXml.XmlNode) (t1 t2 t3 : String) (n : Int) (q : ℚ)
    (hok : ProcesadorXml.procesar_factura_xml (.documento root) = ⟨some f, []⟩)
    (hp : ProcesadorXml.find root ["cac:AccountingSupplierParty", "cac:Party"] = some p)
    (hid : ProcesadorXml.find p ["cac:PartyIdentification", "cbc:ID"] = some idn)
    (ht1 : idn.text = some t1) (ht1ne : t1 ≠ "")
    (hn : pyInt (pyStripS t1) = some n)
    (hfn : ProcesadorXml.find root ["cbc:ID"] = some fn)
    (ht2 : fn.text = some t2) (ht2ne : t2 ≠ "")
    (han : ProcesadorXml.find root ["cac:LegalMonetaryTotal", "cbc:PayableAmount"] = some an)
    (ht3 : an.text = some t3) (ht3ne : t3 ≠ "") (hq : pyFloat t3 = some q) :
    f.rucEmisor = n ∧ f.numeroFactura = pyStripS t2 ∧ f.importeTotal = q := by
  obtain ⟨h1, -, -, h4, n', hn', hru⟩ := ProcesadorXml.construir_ok_campos root f
    (ProcesadorXml.procesar_ok_construir root f [] hok)
  refine ⟨?_, ?_, ?_⟩
  · rw [hru]
    rw [hp, ProcesadorXml.obtener_str_eq p idn _ t1 hid ht1 ht1ne, hn] at hn'
    injection hn' with e
    exact e.symm
  · rw [h4, ProcesadorXml.obtener_str_eq root fn _ t2 hfn ht2 ht2ne]
  · rw [h1, ProcesadorXml.obtener_float_eq root an _ t3 q han ht3 ht3ne hq]

/-- C5 witness: the round trip evaluated on the concrete sample invoice. -/
theorem C5_round_trip_witness :
    ∃ f, ProcesadorXml.procesar_factura_xml (.documento ProcesadorXml.docEjemplo) =
        ⟨some f, []⟩ ∧
      f.rucEmisor = 20123456789 ∧ f.numeroFactura = pyStripS "F001-1" ∧
      f.importeTotal = 4956 := by
  obtain ⟨f, hf⟩ : ∃ f, ProcesadorXml.procesar_factura_xml
      (.documento ProcesadorXml.docEjemplo) = ⟨some f, []⟩ := ⟨_, rfl⟩
  obtain ⟨ha, hb, hc⟩ := C5_round_trip ProcesadorXml.docEjemplo f _ _ _ _
    "20123456789" "F001-1" "4956.00" 20123456789 4956 hf rfl rfl rfl (by decide) (by decide)
    rfl rfl (by decide) rfl rfl (by decide) (by decide)
  exact ⟨f, hf, ha, hb, hc⟩

/-- C10: procesar_factura_xml is all-or-nothing: every input yields either
the complete factura with an empty validacion list, or no factura and a
single validacion message. -/
theorem C10_todo_o_nada (entrada : ProcesadorXml.EntradaXml) :
    (∃ f, ProcesadorXml.procesar_factura_xml entrada = ⟨some f, []⟩) ∨
    (∃ m, ProcesadorXml.procesar_factura_xml entrada = ⟨none, [m]⟩) := by
  cases entrada with
  | sinArchivo => exact Or.inr ⟨_, rfl⟩
  | malformado e => exact Or.inr ⟨_, rfl⟩
  | documento root =>
    cases h : ProcesadorXml.construir_factura root with
    | ok f =>
      refine Or.inl ⟨f, ?_⟩
      simp only [ProcesadorXml.procesar_factura_xml, h]
    | error e =>
      refine Or.inr ⟨"Error procesando XML: " ++ e, ?_⟩
      simp only [ProcesadorXml.procesar_factura_xml, h]

/-- C8: the endpoint always answers with a dictionary: an unsupported
extension gets the fixed format message, a caught write or engine exception
gets a singleton validacion dictionary with its message, and a successful
engine result for pdf, xml, png, jpg or jpeg is returned unchanged; in
every case the result is either the dispatched engine output or a
singleton validacion dictionary. -/
theorem C8_api_dispatch :
    (∀ (pdfRes xmlRes imgRes : Except String Api.Json) (escritura : Except String Unit)
        (filename : String),
      Api.extensionDe (Api.pyLower filename) ∉ Api.extensiones →
      Api.procesar_documento pdfRes xmlRes imgRes escritura filename =
        Api.errJson "Formato de archivo no soportado. Use PDF, XML o Imágenes.") ∧
    (∀ (pdfRes xmlRes imgRes : Except String Api.Json) (filename : String) (j : Api.Json),
      Api.extensionDe (Api.pyLower filename) ∈ Api.extensiones →
      Api.despachar pdfRes xmlRes imgRes (Api.extensionDe (Api.pyLower filename)) = .ok j →
      Api.procesar_documento pdfRes xmlRes imgRes (.ok ()) filename = j) ∧
    (∀ (pdfRes xmlRes imgRes : Except String Api.Json) (filename : String) (e : String),
      Api.extensionDe (Api.pyLower filename) ∈ Api.extensiones →
      Api.despachar pdfRes xmlRes imgRes (Api.extensionDe (Api.pyLower filename)) = .error e →
      Api.procesar_documento pdfRes xmlRes imgRes (.ok ()) filename =
        Api.errJson ("Error interno del servidor: " ++ e)) ∧
    (∀ (pdfRes xmlRes imgRes : Except String Api.Json) (filename : String) (e : String),
      Api.extensionDe (Api.pyLower filename) ∈ Api.extensiones →
      Api.procesar_documento pdfRes xmlRes imgRes (.error e) filename =
        Api.errJson ("Error interno del servidor: " ++ e)) ∧
    (∀ (pdfRes xmlRes imgRes : Except String Api.Json) (escritura : Except String Unit)
        (filename : String),
      (escritura = .ok () ∧
        Api.despachar pdfRes xmlRes imgRes (Api.extensionDe (Api.pyLower filename)) =
          .ok (Api.procesar_documento pdfRes xmlRes imgRes escritura filename)) ∨
      (∃ m, Api.procesar_documento pdfRes xmlRes imgRes escritura filename =
        Api.errJson m)) := by
  refine ⟨?_, ?_, ?_, ?_, ?_⟩
  · intro pdfRes xmlRes imgRes escritura filename h
    unfold Api.procesar_documento
    rw [if_pos h]
  · intro pdfRes xmlRes imgRes filename j h hd
    unfold Api.procesar_documento
    rw [if_neg (by simp [h]), hd]
  · intro pdfRes xmlRes imgRes filename e h hd
    unfold Api.procesar_documento
    rw [if_neg (by simp [h]), hd]
  · intro pdfRes xmlRes imgRes filename e h
    unfold Api.procesar_documento
    rw [if_neg (by simp [h])]
  · intro pdfRes xmlRes imgRes escritura filename
    unfold Api.procesar_documento
    by_cases h : Api.extensionDe (Api.pyLower filename) ∉ Api.extensiones
    · rw [if_pos h]
      exact Or.inr ⟨_, rfl⟩
    · rw [if_neg h]
      cases escritura with
      | error e => exact Or.inr ⟨_, rfl⟩
      | ok u =>
        cases hd : Api.despachar pdfRes xmlRes imgRes (Api.extensionDe (Api.pyLower filename)) with
        | ok j => exact Or.inl ⟨rfl, rfl⟩
        | error e => exact Or.inr ⟨"Error interno del servidor: " ++ e, rfl⟩

/-- C8 witness: the dispatch on a supported upload, an unsupported one, and
an image upload whose engine raises. -/
theorem C8_api_dispatch_witness :
    Api.procesar_documento (.ok .null) (.ok (.str "desde xml")) (.ok .null) (.ok ())
      "Factura.XML" = .str "desde xml" ∧
    Api.procesar_documento (.ok .null) (.ok .null) (.ok .null) (.ok ()) "doc.txt" =
      Api.errJson "Formato de archivo no soportado. Use PDF, XML o Imágenes." ∧
    Api.procesar_documento (.ok .null) (.ok .null) (.error "ocr incompleto") (.ok ())
      "scan.jpg" = Api.errJson ("Error interno del servidor: " ++ "ocr incompleto") :=
  ⟨C8_api_dispatch.2.1 (.ok .null) (.ok (.str "desde xml")) (.ok .null) "Factura.XML"
      (.str "desde xml") (by decide) (by rfl),
    C8_api_dispatch.1 (.ok .null) (.ok .null) (.ok .null) (.ok ()) "doc.txt" (by decide),
    C8_api_dispatch.2.2.1 (.ok .null) (.ok .null) (.error "ocr incompleto") "scan.jpg"
      "ocr incompleto" (by decide) (by rfl)⟩

/-- C4 counterexample: the cited v5 limpiar_monto yields 0.0 instead of
treating the last period of the two-period token 5.200.00 as the decimal
separator, and the cited v4 limpiar_moneda strips the single comma of 4,20
(two trailing digits) as a thousands marker instead of reading 4.20. -/
theorem C4_counterexample :
    ProcesadorImagenV56.limpiar_monto "5.200.00" = 0 ∧ (0 : ℚ) ≠ 5200 ∧
    ProcesadorImagenV4.limpiar_moneda "4,20" = 420 ∧ (420 : ℚ) ≠ 21 / 5 :=
  ⟨by decide, by decide, by decide, by decide⟩

/-- C4 amended: the two separator rules are split between the two cited
cleaners instead of holding for both.  On digit tokens, v4 limpiar_moneda
treats the last of exactly two periods as the decimal separator and strips
single commas as thousands markers regardless of the tail; v5/v6
limpiar_monto (for tokens not starting with the 51 misread pattern) treats
a single comma followed by exactly two digits as the decimal separator,
strips other single commas and a comma preceding a period as thousands
markers, and returns 0.0 on a comma-free two-period token. -/
theorem C4_separadores :
    (∀ a b c : List Char, allDigits a = true → allDigits b = true → allDigits c = true →
      a ≠ [] →
      ProcesadorImagenV4.limpiar_moneda (String.mk (a ++ '.' :: (b ++ '.' :: c))) =
        ((digitsToNat (a ++ b) : Nat) : ℚ) + (digitsToNat c : ℚ) / (10 : ℚ) ^ c.length) ∧
    (∀ a b : List Char, allDigits a = true → allDigits b = true → a ≠ [] →
      ProcesadorImagenV4.limpiar_moneda (String.mk (a ++ ',' :: b)) =
        ((digitsToNat (a ++ b) : Nat) : ℚ)) ∧
    (∀ a b : List Char, allDigits a = true → allDigits b = true → a ≠ [] →
      a.take 2 ≠ ['5', '1'] → b.length = 2 →
      ProcesadorImagenV56.limpiar_monto (String.mk (a ++ ',' :: b)) =
        ((digitsToNat a : Nat) : ℚ) + (digitsToNat b : ℚ) / 100) ∧
    (∀ a b : List Char, allDigits a = true → allDigits b = true → a ≠ [] →
      a.take 2 ≠ ['5', '1'] → b.length ≠ 2 →
      ProcesadorImagenV56.limpiar_monto (String.mk (a ++ ',' :: b)) =
        ((digitsToNat (a ++ b) : Nat) : ℚ)) ∧
    (∀ a b c : List Char, allDigits a = true → allDigits b = true → allDigits c = true →
      a ≠ [] → a.take 2 ≠ ['5', '1'] →
      ProcesadorImagenV56.limpiar_monto (String.mk (a ++ ',' :: (b ++ '.' :: c))) =
        ((digitsToNat (a ++ b) : Nat) : ℚ) + (digitsToNat c : ℚ) / (10 : ℚ) ^ c.length) ∧
    (∀ a b c : List Char, allDigits a = true → allDigits b = true → allDigits c = true →
      a ≠ [] → a.take 2 ≠ ['5', '1'] →
      ProcesadorImagenV56.limpiar_monto (String.mk (a ++ '.' :: (b ++ '.' :: c))) = 0) := by
  refine ⟨?_, ?_, ?_, ?_, ?_, ?_⟩
  · intro a b c ha' hb' hc' hne
    have ha : ∀ x ∈ a, x.isDigit = true := fun x hx => List.all_eq_true.mp ha' x hx
    have hb : ∀ x ∈ b, x.isDigit = true := fun x hx => List.all_eq_true.mp hb' x hx
    have hc : ∀ x ∈ c, x.isDigit = true := fun x hx => List.all_eq_true.mp hc' x hx
    have hcs : ∀ x ∈ a ++ '.' :: (b ++ '.' :: c), tokenMoneda x = true := by
      intro x hx
      simp only [List.mem_append, List.mem_cons] at hx
      rcases hx with h | e | h | e | h
      · exact tokenMoneda_of_digit x (ha x h)
      · rw [e]; decide
      · exact tokenMoneda_of_digit x (hb x h)
      · rw [e]; decide
      · exact tokenMoneda_of_digit x (hc x h)
    rw [ProcesadorImagenV4.limpiar_moneda_token _ (by simp) hcs]
    rw [ProcesadorImagenV4.norm_dos_puntos a b c ha hb hc]
    rw [pyFloatD_dec (a ++ b) c (fun e => hne (List.append_eq_nil.mp e).1)
      (fun x hx => by
        rcases List.mem_append.mp hx with h | h
        · exact ha x h
        · exact hb x h) hc]
  · intro a b ha' hb' hne
    have ha : ∀ x ∈ a, x.isDigit = true := fun x hx => List.all_eq_true.mp ha' x hx
    have hb : ∀ x ∈ b, x.isDigit = true := fun x hx => List.all_eq_true.mp hb' x hx
    have hcs : ∀ x ∈ a ++ ',' :: b, tokenMoneda x = true := by
      intro x hx
      simp only [List.mem_append, List.mem_cons] at hx
      rcases hx with h | e | h
      · exact tokenMoneda_of_digit x (ha x h)
      · rw [e]; decide
      · exact tokenMoneda_of_digit x (hb x h)
    rw [ProcesadorImagenV4.limpiar_moneda_token _ (by simp) hcs]
    rw [ProcesadorImagenV4.norm_coma a b ha hb]
    rw [pyFloatD_digits (a ++ b) (fun e => hne (List.append_eq_nil.mp e).1)
      (fun x hx => by
        rcases List.mem_append.mp hx with h | h
        · exact ha x h
        · exact hb x h)]
  · intro a b ha' hb' hne h51 hb2
    have ha : ∀ x ∈ a, x.isDigit = true := fun x hx => List.all_eq_true.mp ha' x hx
    have hb : ∀ x ∈ b, x.isDigit = true := fun x hx => List.all_eq_true.mp hb' x hx
    have hcs : ∀ x ∈ a ++ ',' :: b, tokenMoneda x = true := by
      intro x hx
      simp only [List.mem_append, List.mem_cons] at hx
      rcases hx with h | e | h
      · exact tokenMoneda_of_digit x (ha x h)
      · rw [e]; decide
      · exact tokenMoneda_of_digit x (hb x h)
    rw [ProcesadorImagenV56.limpiar_monto_token _ (by simp) hcs
      (take2_append_sep a ',' b hne (by decide) h51)]
    rw [ProcesadorImagenV56.sep_coma2 a b ha hb hb2]
    rw [pyFloatD_dec a b hne ha hb, hb2]
    norm_num
  · intro a b ha' hb' hne h51 hb2
    have ha : ∀ x ∈ a, x.isDigit = true := fun x hx => List.all_eq_true.mp ha' x hx
    have hb : ∀ x ∈ b, x.isDigit = true := fun x hx => List.all_eq_true.mp hb' x hx
    have hcs : ∀ x ∈ a ++ ',' :: b, tokenMoneda x = true := by
      intro x hx
      simp only [List.mem_append, List.mem_cons] at hx
      rcases hx with h | e | h
      · exact tokenMoneda_of_digit x (ha x h)
      · rw [e]; decide
      · exact tokenMoneda_of_digit x (hb x h)
    rw [ProcesadorImagenV56.limpiar_monto_token _ (by simp) hcs
      (take2_append_sep a ',' b hne (by decide) h51)]
    rw [ProcesadorImagenV56.sep_comaN a b ha hb hb2]
    rw [pyFloatD_digits (a ++ b) (fun e => hne (List.append_eq_nil.mp e).1)
      (fun x hx => by
        rcases List.mem_append.mp hx with h | h
        · exact ha x h
        · exact hb x h)]
  · intro a b c ha' hb' hc' hne h51
    have ha : ∀ x ∈ a, x.isDigit = true := fun x hx => List.all_eq_true.mp ha' x hx
    have hb : ∀ x ∈ b, x.isDigit = true := fun x hx => List.all_eq_true.mp hb' x hx
    have hc : ∀ x ∈ c, x.isDigit = true := fun x hx => List.all_eq_true.mp hc' x hx
    have hcs : ∀ x ∈ a ++ ',' :: (b ++ '.' :: c), tokenMoneda x = true := by
      intro x hx
      simp only [List.mem_append, List.mem_cons] at hx
      rcases hx with h | e | h | e | h
      · exact tokenMoneda_of_digit x (ha x h)
      · rw [e]; decide
      · exact tokenMoneda_of_digit x (hb x h)
      · rw [e]; decide
      · exact tokenMoneda_of_digit x (hc x h)
    rw [ProcesadorImagenV56.limpiar_monto_token _ (by simp) hcs
      (take2_append_sep a ',' (b ++ '.' :: c) hne (by decide) h51)]
    rw [ProcesadorImagenV56.sep_mixta a b c ha hb hc]
    rw [pyFloatD_dec (a ++ b) c (fun e => hne (List.append_eq_nil.mp e).1)
      (fun x hx => by
        rcases List.mem_append.mp hx with h | h
        · exact ha x h
        · exact hb x h) hc]
  · intro a b c ha' hb' hc' hne h51
    have ha : ∀ x ∈ a, x.isDigit = true := fun x hx => List.all_eq_true.mp ha' x hx
    have hb : ∀ x ∈ b, x.isDigit = true := fun x hx => List.all_eq_true.mp hb' x hx
    have hc : ∀ x ∈ c, x.isDigit = true := fun x hx => List.all_eq_true.mp hc' x hx
    have hcs : ∀ x ∈ a ++ '.' :: (b ++ '.' :: c), tokenMoneda x = true := by
      intro x hx
      simp only [List.mem_append, List.mem_cons] at hx
      rcases hx with h | e | h | e | h
      · exact tokenMoneda_of_digit x (ha x h)
      · rw [e]; decide
      · exact tokenMoneda_of_digit x (hb x h)
      · rw [e]; decide
      · exact tokenMoneda_of_digit x (hc x h)
    rw [ProcesadorImagenV56.limpiar_monto_token _ (by simp) hcs
      (take2_append_sep a '.' (b ++ '.' :: c) hne (by decide) h51)]
    rw [ProcesadorImagenV56.sep_sin_coma _ (by
      intro hm
      simp only [List.mem_append, List.mem_cons] at hm
      rcases hm with h | e | h | e | h
      · exact absurd (ha ',' h) (by decide)
      · exact absurd e (by decide)
      · exact absurd (hb ',' h) (by decide)
      · exact absurd e (by decide)
      · exact absurd (hc ',' h) (by decide))]
    exact pyFloatD_two_dots a b c hne ha hb hc

/-- C4 witness: the amended separator behavior at concrete tokens 5.200.00
(v4, last period decimal) and 4,20 (v5/v6, comma decimal). -/
theorem C4_separadores_witness :
    ProcesadorImagenV4.limpiar_moneda
        (String.mk (['5'] ++ '.' :: (['2', '0', '0'] ++ '.' :: ['0', '0']))) =
      ((digitsToNat (['5'] ++ ['2', '0', '0']) : Nat) : ℚ) +
        (digitsToNat ['0', '0'] : ℚ) / (10 : ℚ) ^ (['0', '0'] : List Char).length ∧
    ProcesadorImagenV56.limpiar_monto (String.mk (['4'] ++ ',' :: ['2', '0'])) =
      ((digitsToNat ['4'] : Nat) : ℚ) + (digitsToNat ['2', '0'] : ℚ) / 100 :=
  ⟨C4_separadores.1 ['5'] ['2', '0', '0'] ['0', '0'] (by decide) (by decide) (by decide)
      (by decide),
    C4_separadores.2.2.1 ['4'] ['2', '0'] (by decide) (by decide) (by decide) (by decide)
      (by decide)⟩

end Claims
